import Mathlib

/-!
Verification development for the Inland CMS backend (GitHub-backed static
site / article synchronization).  The definitions below are a shallow
embedding of the TypeScript source:

* pure string manipulation (`generateExcerpt`, `parseMarkdownContent`,
  placeholder replacement) is translated function-by-function, with the
  JavaScript regular expressions realised as specialised backtracking
  matchers over `List Char`;
* the Prisma database and the GitHub REST surface are modelled as explicit
  functional state (`DbState`, `World`) threaded through each operation;
* `Effect` failures are modelled with `Except`.  Note that a JavaScript
  `try`/`catch` placed around `yield*` inside `Effect.gen` does NOT
  intercept typed Effect failures (the generator is simply never resumed),
  so such failures propagate; only `Effect.catchAll` / `Effect.catchTag`
  combinators actually recover.  The embedding reflects this.
-/

namespace Inland

/-- Character class of the JavaScript `\s` regex class, which is also the
set trimmed by `String.prototype.trim`. -/
def isWs (c : Char) : Bool :=
  c = ' ' || c = '\t' || c = '\n' || c = '\r' ||
  c.toNat = 11 || c.toNat = 12 ||
  c.toNat = 160 || c.toNat = 0x1680 ||
  (0x2000 ≤ c.toNat && c.toNat ≤ 0x200a) ||
  c.toNat = 0x2028 || c.toNat = 0x2029 || c.toNat = 0x202f ||
  c.toNat = 0x205f || c.toNat = 0x3000 || c.toNat = 0xfeff

/-- Character class of the JavaScript `\d` regex class. -/
def isDigitCh (c : Char) : Bool :=
  '0' ≤ c && c ≤ '9'

/-- Character class of the JavaScript `\w` regex class. -/
def isWordChar (c : Char) : Bool :=
  ('a' ≤ c && c ≤ 'z') || ('A' ≤ c && c ≤ 'Z') || isDigitCh c || c = '_'

/-- ASCII upper-casing, as applied by `toUpperCase` to the word-initial
characters produced here (all inputs in this code path are ASCII). -/
def toUpperAscii (c : Char) : Char :=
  if 'a' ≤ c && c ≤ 'z' then Char.ofNat (c.toNat - 32) else c

/-- The backquote character (inline-code delimiter). -/
def backquoteCh : Char := Char.ofNat 96

/-- Unwrap a string literal into its character list. -/
def str (s : String) : List Char := s.data

/-- List-level `startsWith` (second argument is the pattern). -/
def startsWithL : List Char → List Char → Bool
  | _, [] => true
  | [], _ :: _ => false
  | c :: rest, p :: ps => c = p && startsWithL rest ps

/-- List-level `endsWith` (second argument is the pattern). -/
def endsWithL (l pat : List Char) : Bool :=
  startsWithL l.reverse pat.reverse

/-- String-level `startsWith`. -/
def startsWithStr (s pat : String) : Bool :=
  startsWithL s.data pat.data

/-- String-level `endsWith`. -/
def endsWithStr (s pat : String) : Bool :=
  endsWithL s.data pat.data

/-- JavaScript `String.prototype.includes` for a literal pattern. -/
def hasSub (pat : List Char) : List Char → Bool
  | [] => startsWithL [] pat
  | c :: rest => startsWithL (c :: rest) pat || hasSub pat rest

/-- JavaScript `replace` with a string pattern: replace the first
occurrence only.  All patterns used in the source are non-empty. -/
def replaceFirstStr (pat repl : List Char) : List Char → List Char
  | [] => []
  | c :: rest =>
    if startsWithL (c :: rest) pat then repl ++ (c :: rest).drop pat.length
    else c :: replaceFirstStr pat repl rest

/-- Global (non-overlapping, left-to-right) replacement of a non-empty
literal pattern `p :: ps`, as performed by `replace(new RegExp(pat, g))`
on a pattern without special regex behaviour. -/
def replaceAllSub (p : Char) (ps repl : List Char) : List Char → List Char
  | [] => []
  | c :: rest =>
    if startsWithL (c :: rest) (p :: ps) then
      repl ++ replaceAllSub p ps repl (rest.drop ps.length)
    else c :: replaceAllSub p ps repl rest
termination_by l => l.length
decreasing_by
  · simp [List.length_drop]
    omega
  · simp

/-- Global replacement wrapper; the empty pattern never occurs in the
source (placeholder tokens are literal non-empty strings). -/
def replaceAllS (pat repl l : List Char) : List Char :=
  match pat with
  | [] => l
  | p :: ps => replaceAllSub p ps repl l

/-- JavaScript `String.prototype.trim`. -/
def trimL (l : List Char) : List Char :=
  (((l.dropWhile isWs).reverse).dropWhile isWs).reverse

/-- JavaScript `split` on a newline character. -/
def splitOnNl : List Char → List (List Char)
  | [] => [[]]
  | c :: rest =>
    if c = '\n' then [] :: splitOnNl rest
    else
      match splitOnNl rest with
      | h :: t => (c :: h) :: t
      | [] => [[c]]

/-- Split a line at its first colon: `some (before, after)` when a colon
occurs, mirroring `indexOf` + `substring`. -/
def splitColon : List Char → Option (List Char × List Char)
  | [] => none
  | c :: rest =>
    if c = ':' then some ([], rest)
    else (splitColon rest).map (fun p => (c :: p.1, p.2))

/-- JavaScript `lastIndexOf` for a character, as an `Option` (`none` is
the `-1` case). -/
def lastIdxOf (c : Char) : List Char → Option Nat
  | [] => none
  | x :: xs =>
    match lastIdxOf c xs with
    | some j => some (j + 1)
    | none => if x = c then some 0 else none

/-!
Phases of `generateExcerpt` (article-github.ts).  Each `replace` with a
`gm` regex anchored at `^` is a left-to-right scan that attempts a match
at every line start; the matched text is removed and scanning resumes
after the match (tracking whether the resume point is a line start).
-/

/-- One pass of a line-start-anchored deletion.  `tryM` reports a match at
the current position as `some (lastConsumed, rest)`.  Fuel bounds the
recursion; it is always instantiated with more fuel than characters. -/
def lineScanGo (tryM : List Char → Option (Char × List Char)) :
    Nat → Bool → List Char → List Char
  | 0, _, l => l
  | _ + 1, _, [] => []
  | fuel + 1, atStart, c :: rest =>
    if atStart then
      match tryM (c :: rest) with
      | some (lastC, rest2) => lineScanGo tryM fuel (lastC = '\n') rest2
      | none => c :: lineScanGo tryM fuel (c = '\n') rest
    else c :: lineScanGo tryM fuel (c = '\n') rest

/-- Run a line-start-anchored deletion over a whole string (position 0 is
a line start). -/
def lineScan (tryM : List Char → Option (Char × List Char)) (l : List Char) :
    List Char :=
  lineScanGo tryM (l.length + 1) true l

/-- Matcher for the header regex: one to six hash marks followed by at
least one whitespace character (greedy).  Seven or more hash marks never
match (the quantifier is capped at six and the next character is then
another hash mark, not whitespace). -/
def tryHeaderM (l : List Char) : Option (Char × List Char) :=
  let hs := l.takeWhile (fun c => c = '#')
  if 1 ≤ hs.length && hs.length ≤ 6 then
    let after := l.drop hs.length
    let ws := after.takeWhile isWs
    match ws.reverse with
    | [] => none
    | w :: _ => some (w, after.drop ws.length)
  else none

/-- Matcher for the blockquote regex: a greater-than sign at line start
followed by at least one whitespace character (greedy). -/
def tryBlockquoteM (l : List Char) : Option (Char × List Char) :=
  match l with
  | c :: rest =>
    if c = '>' then
      let ws := rest.takeWhile isWs
      match ws.reverse with
      | [] => none
      | w :: _ => some (w, rest.drop ws.length)
    else none
  | [] => none

/-- Matcher for the bullet-list regex: optional whitespace run, a bullet
character, then at least one whitespace character.  Because the leading
whitespace run is maximal, backtracking it cannot put a whitespace
character under the bullet-class position, so only the maximal run can
match. -/
def tryListMarkerM (l : List Char) : Option (Char × List Char) :=
  let ws0 := l.takeWhile isWs
  match l.drop ws0.length with
  | m :: rest =>
    if m = '-' || m = '*' || m = '+' then
      let ws1 := rest.takeWhile isWs
      match ws1.reverse with
      | [] => none
      | w :: _ => some (w, rest.drop ws1.length)
    else none
  | [] => none

/-- Matcher for the numbered-list regex: optional whitespace run, at least
one digit, a dot, then at least one whitespace character. -/
def tryNumberedM (l : List Char) : Option (Char × List Char) :=
  let ws0 := l.takeWhile isWs
  let afterWs := l.drop ws0.length
  let ds := afterWs.takeWhile isDigitCh
  if ds.length = 0 then none
  else
    match afterWs.drop ds.length with
    | d :: rest =>
      if d = '.' then
        let ws1 := rest.takeWhile isWs
        match ws1.reverse with
        | [] => none
        | w :: _ => some (w, rest.drop ws1.length)
      else none
    | [] => none

/-- One pass of an unanchored global replacement.  `tryM` reports a match
at the current position as `some (replacement, rest)`; scanning resumes
after the match without rescanning the replacement. -/
def inlineScanGo (tryM : List Char → Option (List Char × List Char)) :
    Nat → List Char → List Char
  | 0, l => l
  | _ + 1, [] => []
  | fuel + 1, c :: rest =>
    match tryM (c :: rest) with
    | some (repl, rest2) => repl ++ inlineScanGo tryM fuel rest2
    | none => c :: inlineScanGo tryM fuel rest

/-- Run an unanchored global replacement over a whole string. -/
def inlineScan (tryM : List Char → Option (List Char × List Char))
    (l : List Char) : List Char :=
  inlineScanGo tryM (l.length + 1) l

/-- Matcher for the emphasis regex: one or two asterisks (greedy), at
least one non-asterisk character, one or two asterisks (greedy), replaced
by the inner text.  Backtracking the opener from two to one asterisk
cannot succeed because the content class excludes asterisks, so each
branch is decided directly. -/
def tryBoldM : List Char → Option (List Char × List Char)
  | '*' :: '*' :: rest2 =>
    let t := rest2.takeWhile (fun c => c ≠ '*')
    if t.isEmpty then none
    else
      match rest2.drop t.length with
      | '*' :: '*' :: r => some (t, r)
      | '*' :: r => some (t, r)
      | _ => none
  | '*' :: rest1 =>
    let t := rest1.takeWhile (fun c => c ≠ '*')
    if t.isEmpty then none
    else
      match rest1.drop t.length with
      | '*' :: '*' :: r => some (t, r)
      | '*' :: r => some (t, r)
      | _ => none
  | _ => none

/-- Matcher for the link regex: bracketed non-empty text followed by a
parenthesised non-empty target, replaced by the text. -/
def tryLinkM : List Char → Option (List Char × List Char)
  | '[' :: rest =>
    let t := rest.takeWhile (fun c => c ≠ ']')
    if t.isEmpty then none
    else
      match rest.drop t.length with
      | ']' :: '(' :: rest2 =>
        let u := rest2.takeWhile (fun c => c ≠ ')')
        if u.isEmpty then none
        else
          match rest2.drop u.length with
          | ')' :: r => some (t, r)
          | _ => none
      | _ => none
  | _ => none

/-- Matcher for the inline-code regex: backquoted non-empty text replaced
by the inner text. -/
def tryCodeM : List Char → Option (List Char × List Char)
  | c :: rest =>
    if c = backquoteCh then
      let t := rest.takeWhile (fun x => x ≠ backquoteCh)
      if t.isEmpty then none
      else
        match rest.drop t.length with
        | d :: r => if d = backquoteCh then some (t, r) else none
        | [] => none
    else none
  | [] => none

/-- Remove the first colon, as done by `replace` with the one-character
string pattern. -/
def removeFirstColon : List Char → List Char
  | [] => []
  | c :: rest => if c = ':' then rest else c :: removeFirstColon rest

mutual

/-- Collapse of every whitespace run to a single space (the global
whitespace-plus replacement). -/
def collapseWs : List Char → List Char
  | [] => []
  | c :: rest => if isWs c then ' ' :: skipWsRun rest else c :: collapseWs rest

/-- Skip the remainder of a whitespace run already replaced by a space. -/
def skipWsRun : List Char → List Char
  | [] => []
  | c :: rest => if isWs c then skipWsRun rest else c :: collapseWs rest

end

/-- The markdown-stripping pipeline of `generateExcerpt`, phases applied
in source order. -/
def stripMarkdown (content : List Char) : List Char :=
  trimL (collapseWs (lineScan tryNumberedM (lineScan tryListMarkerM
    (lineScan tryBlockquoteM (inlineScan tryCodeM (inlineScan tryLinkM
      (inlineScan tryBoldM (lineScan tryHeaderM
        (removeFirstColon content)))))))))

/-- The literal ellipsis appended on truncation. -/
def dots : List Char := str "..."

/-- Translation of `generateExcerpt` (article-github.ts): strip markdown,
then truncate to 150 characters preferring the last space when it lies
past position 100. -/
def generateExcerpt (content : List Char) : List Char :=
  let text := stripMarkdown content
  if text.length ≤ 150 then text
  else
    let truncated := text.take 150
    match lastIdxOf ' ' truncated with
    | some k => if k > 100 then truncated.take k ++ dots else truncated ++ dots
    | none => truncated ++ dots

/-!
Front-matter matcher.  The source splits a file with the anchored regex
`three dashes, whitespace-star, newline, lazy group, newline, three
dashes, whitespace-star, newline, greedy rest`.  Since the trailing
greedy group always matches, the backtracking search is equivalent to:
after the opening dashes, try the longest whitespace run first for the
first whitespace-star (falling back towards shorter runs), match a
newline, then find the earliest closing delimiter whose own
whitespace-star-newline part can match (again longest-whitespace-first).
-/

/-- Match `whitespace-star newline` with greedy backtracking, returning
the remainder after the newline. -/
def matchWsNl : List Char → Option (List Char)
  | [] => none
  | c :: rest =>
    if isWs c then
      match matchWsNl rest with
      | some r => some r
      | none => if c = '\n' then some rest else none
    else none

/-- Try to match the closing delimiter (`newline dash dash dash
whitespace-star newline`) at the current position, returning the body
after it. -/
def delimAt : List Char → Option (List Char)
  | '\n' :: '-' :: '-' :: '-' :: rest => matchWsNl rest
  | _ => none

/-- Lazy search for the earliest closing delimiter; returns the text
before it (the front-matter capture) and the body after it. -/
def findDelim : List Char → Option (List Char × List Char)
  | [] => none
  | c :: rest =>
    match delimAt (c :: rest) with
    | some body => some ([], body)
    | none =>
      match findDelim rest with
      | some (front, body) => some (c :: front, body)
      | none => none

/-- After the opening dashes: greedy `whitespace-star` followed by a
newline, then the lazy delimiter search; on failure of the whole rest of
the pattern, backtrack the whitespace run. -/
def goWsOpen : List Char → Option (List Char × List Char)
  | [] => none
  | c :: rest =>
    if isWs c then
      match goWsOpen rest with
      | some r => some r
      | none => if c = '\n' then findDelim rest else none
    else none

/-- The whole front-matter regex: `some (frontMatterText, body)` on a
match, `none` otherwise. -/
def matchFront : List Char → Option (List Char × List Char)
  | '-' :: '-' :: '-' :: rest => goWsOpen rest
  | _ => none

/-- Front-matter lines to key-value pairs: keep lines whose first colon
is at a positive index, trimming key and value. -/
def fmLines : List (List Char) → List (List Char × List Char)
  | [] => []
  | line :: rest =>
    match splitColon line with
    | some (b, a) =>
      if b = [] then fmLines rest
      else (trimL b, trimL a) :: fmLines rest
    | none => fmLines rest

/-- Object-style lookup where a later line with the same key overwrites
an earlier one. -/
def lookupLast (es : List (List Char × List Char)) (k : List Char) :
    Option (List Char) :=
  es.foldl (fun acc e => if e.1 = k then some e.2 else acc) none

/-- JavaScript `value || fallback` where the empty string is falsy. -/
def orFalsy (v : Option (List Char)) (d : List Char) : List Char :=
  match v with
  | some x => if x = [] then d else x
  | none => d

/-- Replace every dash with a space, then upper-case each character that
starts a word (the title-casing fallback applied to a slug). -/
def titleCaseGo : Bool → List Char → List Char
  | _, [] => []
  | prevW, c :: rest =>
    let isW := isWordChar c
    (if isW && !prevW then toUpperAscii c else c) :: titleCaseGo isW rest

/-- Title-case a slug: dashes to spaces, word-initial characters
upper-cased. -/
def titleCase (slug : List Char) : List Char :=
  titleCaseGo false (slug.map (fun c => if c = '-' then ' ' else c))

/-- Article status enumeration. -/
inductive ArtStatus where
  | draft
  | published
deriving DecidableEq, Repr

/-- Result shape of `parseMarkdownContent` (character-list level). -/
structure ParsedArticle where
  title : List Char
  slug : List Char
  content : List Char
  status : ArtStatus
deriving DecidableEq, Repr

/-- Translation of `parseMarkdownContent` (part_002 / github-service.ts).
The surrounding `try` only guards against thrown exceptions, which the
translated operations cannot produce, so the null branch is dropped. -/
def parseMarkdownContent (content filePath : List Char) : ParsedArticle :=
  let slug := replaceFirstStr (str ".md") []
    (replaceFirstStr (str "content/") [] filePath)
  match matchFront content with
  | none =>
    { title := titleCase slug
      slug := slug
      content := trimL content
      status := .published }
  | some (fmText, body) =>
    let entries := fmLines (splitOnNl fmText)
    { title := orFalsy (lookupLast entries (str "title")) (titleCase slug)
      slug := orFalsy (lookupLast entries (str "slug")) slug
      content := trimL body
      status :=
        if lookupLast entries (str "status") = some (str "draft")
        then .draft else .published }

/-- The hosted markdown file produced by `publishArticleToGitHub`: a
front-matter block with title, date and derived excerpt, a blank line,
then the raw body.  The date string is supplied by the caller (the source
formats the current day). -/
def renderMarkdown (title today content : List Char) : List Char :=
  str "---\ntitle: " ++ title ++ str "\ndate: " ++ today ++
    str "\nexcerpt: " ++ generateExcerpt content ++ str "\n---\n\n" ++ content

/-!
Domain error taxonomy.  Every failure value of the embedded operations is
one of these constructors; in the source they are tagged errors, plain
failed strings, or structural error objects (git-provider-repository.ts
declares `RepositoryCreationError` and `PagesDeploymentError` as untagged
interfaces of identical shape).
-/

/-- Decidable equality for `Except` outcomes, used to evaluate the
embedded operations on concrete inputs. -/
instance exceptDecEq {ε α : Type} [DecidableEq ε] [DecidableEq α] :
    DecidableEq (Except ε α)
  | .ok a, .ok b =>
    if h : a = b then .isTrue (congrArg Except.ok h)
    else .isFalse (fun he => h (Except.ok.inj he))
  | .error a, .error b =>
    if h : a = b then .isTrue (congrArg Except.error h)
    else .isFalse (fun he => h (Except.error.inj he))
  | .ok _, .error _ => .isFalse (fun he => Except.noConfusion he)
  | .error _, .ok _ => .isFalse (fun he => Except.noConfusion he)

/-- Closed error taxonomy of the embedded services. -/
inductive Err where
  | api (message : String) (status : Option Nat)
  | plain (message : String)
  | tokenError (message : String)
  | articleNotFound (articleId : String)
  | articleAccessDenied (articleId : String) (userId : String)
  | siteNotFound (siteId : String)
  | siteAccessDenied (siteId : String) (userId : String)
  | siteAccess (siteId : String) (userId : String)
  | duplicateSlug (slug : String) (siteId : String)
  | repoCreation (repoName : String) (reason : String)
  | pagesDeployment (repoName : String) (reason : String)
deriving DecidableEq, Repr

/-- Database row: Article (timestamps are not modelled). -/
structure Article where
  id : String
  siteId : String
  title : String
  slug : String
  content : String
  status : ArtStatus
deriving DecidableEq, Repr

/-- Database row: Site (fields consumed by the embedded operations). -/
structure Site where
  id : String
  userId : String
  name : String
  gitRepo : Option String
  platform : String
  deployStatus : String
deriving DecidableEq, Repr

/-- Database row: GitIntegration. -/
structure GitIntegration where
  userId : String
  platform : String
  platformUsername : String
  accessToken : String
deriving DecidableEq, Repr

/-- The relational store consumed through the repository layer. -/
structure DbState where
  sites : List Site
  articles : List Article
  integrations : List GitIntegration
deriving DecidableEq, Repr

/-- A hosted file in the GitHub repository (content stored decoded; the
client base64-encodes on write and decodes on read, transporting content
unchanged). -/
structure FileEntry where
  path : String
  content : String
  sha : String
deriving DecidableEq, Repr

/-- The hosted repository state.  `broken` lists paths whose content GET
fails with a server error (the failure-injection needed to model remote
faults); `counter` drives fresh commit shas. -/
structure World where
  files : List FileEntry
  broken : List String
  counter : Nat
deriving DecidableEq, Repr

/-- The contents GET of the GitHub client: server failure for broken
paths, 404 for absent files, the entry otherwise. -/
def getFileContentW (w : World) (path : String) : Except Err FileEntry :=
  if w.broken.contains path then
    .error (.api "GitHub API error: server error" (some 500))
  else
    match w.files.find? (fun f => f.path == path) with
    | some e => .ok e
    | none => .error (.api "GitHub API error: Not Found" (some 404))

/-- `getFileOrNull`: a 404 becomes `none`; every other failure
propagates. -/
def getFileOrNull (w : World) (path : String) : Except Err (Option FileEntry) :=
  match getFileContentW w path with
  | .ok e => .ok (some e)
  | .error (.api m (some st)) =>
    if st = 404 then .ok none else .error (.api m (some st))
  | .error e => .error e

/-- The contents PUT: sha present means update (must match the stored
sha), sha absent means create (the path must be free).  Returns the new
commit sha and the updated world. -/
def putFileW (w : World) (path content _message : String)
    (sha : Option String) : Except Err (String × World) :=
  let write : String × World :=
    ("commit" ++ toString w.counter,
      { files := { path := path, content := content,
                   sha := "blob" ++ toString w.counter } ::
                 w.files.filter (fun f => f.path != path)
        broken := w.broken
        counter := w.counter + 1 })
  match w.files.find? (fun f => f.path == path), sha with
  | some e, some s =>
    if e.sha = s then .ok write
    else .error (.api "GitHub API error: sha mismatch" (some 409))
  | some _, none => .error (.api "GitHub API error: sha required" (some 422))
  | none, some _ => .error (.api "GitHub API error: Not Found" (some 404))
  | none, none => .ok write

/-- The contents DELETE: the path must exist and the supplied sha must
match. -/
def deleteFileW (w : World) (path : String) (sha : String)
    (_message : String) : Except Err World :=
  match w.files.find? (fun f => f.path == path) with
  | some e =>
    if e.sha = sha then
      .ok { w with files := w.files.filter (fun f => f.path != path) }
    else .error (.api "GitHub API error: sha mismatch" (some 409))
  | none => .error (.api "GitHub API error: Not Found" (some 404))

/-- The recursive tree listing restricted to blobs: all stored file paths
plus the broken ones (which list fine but fail on content GET). -/
def treeBlobPaths (w : World) : List String :=
  w.files.map (fun f => f.path) ++ w.broken

/-!
Access-token resolver (auth-service.ts, repository-based variant) and its
database helpers (part_001).
-/

/-- Provider verdict of the token-validation probe. -/
structure TokenValidation where
  isValid : Bool
  reason : Option String

/-- External environment: the hosting provider's validation probe
(`validateGitHubToken` never fails, it returns a verdict). -/
structure Env where
  validate : String → TokenValidation

/-- `getGitHubToken` of the Prisma user repository: first integration for
(user, github); the JavaScript `accessToken || null` turns an empty
(cleared) token into null. -/
def getGitHubTokenDb (db : DbState) (userId : String) : Option String :=
  match db.integrations.find?
      (fun g => g.userId == userId && g.platform == "github") with
  | some g => if g.accessToken = "" then none else some g.accessToken
  | none => none

/-- `clearGitHubToken`: `updateMany` setting the stored token to the
empty string on every (user, github) integration row. -/
def clearGitHubTokenDb (db : DbState) (userId : String) : DbState :=
  { db with
    integrations := db.integrations.map (fun g =>
      if g.userId == userId && g.platform == "github" then
        { g with accessToken := "" }
      else g) }

/-- Default invalidity message of the resolver. -/
def defaultTokenMsg : String :=
  "GitHub token is invalid. Please reconnect your GitHub account."

/-- JavaScript `reason || default` where the empty string is falsy. -/
def reasonOrDefault (r : Option String) : String :=
  match r with
  | some s => if s = "" then defaultTokenMsg else s
  | none => defaultTokenMsg

/-- Translation of `getUserGitHubToken` (auth-service.ts, lines 223-250):
absent token fails with the no-integration message; an invalid token is
cleared in the database and the provider reason (or the default) is
reported; a valid token is returned with the database untouched. -/
def getUserGitHubToken (env : Env) (db : DbState) (userId : String) :
    Except Err String × DbState :=
  match getGitHubTokenDb db userId with
  | none => (.error (.tokenError "No GitHub integration found for user"), db)
  | some tok =>
    let v := env.validate tok
    if v.isValid then (.ok tok, db)
    else
      (.error (.tokenError (reasonOrDefault v.reason)),
        clearGitHubTokenDb db userId)

/-!
Git-provider operations (part_002, `makeGitHubApiRepository`).
-/

/-- Result shape of `publishArticleToRepo`. -/
structure PubRes where
  published : Bool
  filePath : String
  commitSha : String
  wasUpdate : Bool
deriving DecidableEq, Repr

/-- Translation of `publishArticleToRepo`: probe the hosted path for an
existing sha (404 tolerated), then PUT; `wasUpdate` reflects the probe. -/
def publishArticleToRepo (w : World) (_repoFullName slug markdown : String) :
    Except Err PubRes × World :=
  let filePath := "content/" ++ slug ++ ".md"
  match getFileOrNull w filePath with
  | .error e => (.error e, w)
  | .ok existing =>
    let sha := existing.map (fun e => e.sha)
    let message :=
      (if sha.isSome then "Update" else "Add") ++ " article: " ++ slug
    match putFileW w filePath markdown message sha with
    | .error e => (.error e, w)
    | .ok (commitSha, w2) =>
      (.ok { published := true, filePath := filePath, commitSha := commitSha,
             wasUpdate := sha.isSome }, w2)

/-- Result shape of `deleteArticleFromRepo` /
`deleteArticleFromGitHub`. -/
structure DelRes where
  deleted : Bool
  reason : Option String
  filePath : Option String
deriving DecidableEq, Repr

/-- Translation of `deleteArticleFromRepo`: a 404 probe is a
success-shaped no-op; otherwise DELETE with the probed sha. -/
def deleteArticleFromRepo (w : World) (_repoFullName slug : String) :
    Except Err DelRes × World :=
  let filePath := "content/" ++ slug ++ ".md"
  match getFileOrNull w filePath with
  | .error e => (.error e, w)
  | .ok none =>
    (.ok { deleted := false, reason := some "File not found",
           filePath := none }, w)
  | .ok (some e) =>
    match deleteFileW w filePath e.sha ("Delete article: " ++ slug) with
    | .error e2 => (.error e2, w)
    | .ok w2 =>
      (.ok { deleted := true, reason := none, filePath := some filePath }, w2)

/-- Article payload produced by the import parser. -/
structure ImportedArticle where
  title : String
  slug : String
  content : String
  status : ArtStatus
deriving DecidableEq, Repr

/-- String-level wrapper of `parseMarkdownContent`. -/
def parseMarkdownContentS (content filePath : String) : ImportedArticle :=
  let p := parseMarkdownContent content.data filePath.data
  { title := String.mk p.title, slug := String.mk p.slug,
    content := String.mk p.content, status := p.status }

/-- Sequential fetch-and-parse of the listed markdown files.  The
JavaScript `try`/`catch` around the fetch cannot intercept a typed Effect
failure, so a failing content GET fails the whole listing. -/
def fetchMarkdownFiles (w : World) : List String →
    Except Err (List ImportedArticle)
  | [] => .ok []
  | p :: ps =>
    match getFileContentW w p with
    | .error e => .error e
    | .ok fileData =>
      let article := parseMarkdownContentS fileData.content p
      match fetchMarkdownFiles w ps with
      | .error e => .error e
      | .ok rest => .ok (article :: rest)

/-- Translation of `getMarkdownFilesFromRepo`: filter the tree to
markdown blobs under the content directory and fetch them
sequentially. -/
def getMarkdownFilesFromRepo (w : World) (_repoFullName _branch : String) :
    Except Err (List ImportedArticle) :=
  let mdFiles := (treeBlobPaths w).filter
    (fun p => startsWithStr p "content/" && endsWithStr p ".md")
  fetchMarkdownFiles w mdFiles

/-!
Domain orchestration operations (site-operations.ts,
article-operations.ts, article-github.ts).  Each operation threads the
database and the hosted-repository world explicitly; both are available
through the ambient Effect context in the source, so an operation that
never touches one simply returns it unchanged.
-/

/-- String-level wrapper of `generateExcerpt`. -/
def generateExcerptS (s : String) : String :=
  String.mk (generateExcerpt s.data)

/-- String-level wrapper of `renderMarkdown`. -/
def renderMarkdownS (title today content : String) : String :=
  String.mk (renderMarkdown title.data today.data content.data)

/-- JavaScript truthiness of `site.gitRepo` (null and the empty string
are both falsy). -/
def gitRepoLinked (s : Site) : Bool :=
  match s.gitRepo with
  | some r => r != ""
  | none => false

/-- The repository string used once `gitRepoLinked` holds. -/
def gitRepoOf (s : Site) : String :=
  (s.gitRepo).getD ""

/-- `findById` of the article repository, including the owning site (the
foreign key always resolves). -/
def findArticleWithSite (db : DbState) (id : String) :
    Option (Article × Site) :=
  match db.articles.find? (fun a => a.id == id) with
  | some a =>
    match db.sites.find? (fun s => s.id == a.siteId) with
    | some s => some (a, s)
    | none => none
  | none => none

/-- Optional update payload of `updateSite`. -/
structure UpdateSiteData where
  name : Option String
  gitRepo : Option String
  platform : Option String
  deployStatus : Option String

/-- Prisma update of a site row: absent fields are left unchanged. -/
def applySiteUpdate (d : UpdateSiteData) (s : Site) : Site :=
  { s with
    name := d.name.getD s.name
    gitRepo := match d.gitRepo with | some r => some r | none => s.gitRepo
    platform := d.platform.getD s.platform
    deployStatus := d.deployStatus.getD s.deployStatus }

/-- Translation of `updateSite` (site-operations.ts): existence then
ownership check, then the row update. -/
def updateSiteOp (db : DbState) (w : World) (siteId userId : String)
    (d : UpdateSiteData) : Except Err Site × DbState × World :=
  match db.sites.find? (fun s => s.id == siteId) with
  | none => (.error (.siteNotFound siteId), db, w)
  | some s =>
    if s.userId = userId then
      let s2 := applySiteUpdate d s
      (.ok s2,
        { db with sites := db.sites.map (fun x =>
            if x.id == siteId then applySiteUpdate d x else x) }, w)
    else (.error (.siteAccessDenied siteId userId), db, w)

/-- Translation of `deleteSite` (site-operations.ts): existence then
ownership check, then row deletion (the hosted repository is never
touched — deliberate asymmetry). -/
def deleteSiteOp (db : DbState) (w : World) (siteId userId : String) :
    Except Err Site × DbState × World :=
  match db.sites.find? (fun s => s.id == siteId) with
  | none => (.error (.siteNotFound siteId), db, w)
  | some s =>
    if s.userId = userId then
      (.ok s, { db with sites := db.sites.eraseP (fun x => x.id == siteId) }, w)
    else (.error (.siteAccessDenied siteId userId), db, w)

/-- Optional update payload of `updateArticle`. -/
structure UpdateArticleData where
  title : Option String
  slug : Option String
  content : Option String
  status : Option ArtStatus

/-- Field merge of `updateArticle`: title and slug use JavaScript
truthiness (an empty string is dropped), content is gated on
`undefined`, status values are always truthy. -/
def applyArticleUpdate (d : UpdateArticleData) (a : Article) : Article :=
  { a with
    title := match d.title with
      | some t => if t = "" then a.title else t
      | none => a.title
    slug := match d.slug with
      | some sl => if sl = "" then a.slug else sl
      | none => a.slug
    content := d.content.getD a.content
    status := d.status.getD a.status }

/-- Translation of `updateArticle` (article-operations.ts): existence
then ownership check against the owning site, then the row update. -/
def updateArticleOp (db : DbState) (w : World) (articleId userId : String)
    (d : UpdateArticleData) : Except Err Article × DbState × World :=
  match findArticleWithSite db articleId with
  | none => (.error (.articleNotFound articleId), db, w)
  | some (a, s) =>
    if s.userId = userId then
      (.ok (applyArticleUpdate d a),
        { db with articles := db.articles.map (fun x =>
            if x.id == articleId then applyArticleUpdate d x else x) }, w)
    else (.error (.articleAccessDenied articleId userId), db, w)

/-- Response shape of the database-side `deleteArticle`. -/
structure DeleteArticleResult where
  article : Article
  gitHubDeleted : Bool
  gitHubError : Option String
  hasGitHubRepo : Bool
deriving DecidableEq, Repr

/-- Translation of `deleteArticle` (article-operations.ts): existence
then ownership check, then deletion of the database row only; the
response hard-codes `gitHubDeleted: false` and `gitHubError: null` and
the hosting provider is never contacted. -/
def deleteArticleOp (db : DbState) (w : World) (articleId userId : String) :
    Except Err DeleteArticleResult × DbState × World :=
  match findArticleWithSite db articleId with
  | none => (.error (.articleNotFound articleId), db, w)
  | some (a, s) =>
    if s.userId = userId then
      (.ok { article := a, gitHubDeleted := false, gitHubError := none,
             hasGitHubRepo := gitRepoLinked s },
        { db with articles := db.articles.eraseP (fun x => x.id == articleId) },
        w)
    else (.error (.articleAccessDenied articleId userId), db, w)

/-- Response shape of `publishArticleToGitHub`. -/
structure PublishOut where
  article : Article
  published : Bool
  filePath : String
  commitSha : String
  wasUpdate : Bool
deriving DecidableEq, Repr

/-- Translation of `publishArticleToGitHub` (article-github.ts): load and
authorize, require a linked repository, resolve the token, render the
front-matter file, publish through the provider, then unconditionally set
the database status to published. -/
def publishArticleToGitHub (env : Env) (db : DbState) (w : World)
    (articleId userId today : String) :
    Except Err PublishOut × DbState × World :=
  match findArticleWithSite db articleId with
  | none => (.error (.articleNotFound articleId), db, w)
  | some (a, s) =>
    if s.userId = userId then
      if gitRepoLinked s then
        match getUserGitHubToken env db userId with
        | (.error e, db2) => (.error e, db2, w)
        | (.ok _tok, db2) =>
          let markdown := renderMarkdownS a.title today a.content
          match publishArticleToRepo w (gitRepoOf s) a.slug markdown with
          | (.error e, w2) => (.error e, db2, w2)
          | (.ok r, w2) =>
            let db3 :=
              { db2 with articles := db2.articles.map (fun x =>
                  if x.id == articleId then { x with status := .published }
                  else x) }
            (.ok { article := { a with status := .published },
                   published := r.published, filePath := r.filePath,
                   commitSha := r.commitSha, wasUpdate := r.wasUpdate },
              db3, w2)
      else
        (.error (.plain "Site does not have a linked GitHub repository"),
          db, w)
    else (.error (.articleAccessDenied articleId userId), db, w)

/-- Translation of `deleteArticleFromGitHub` (article-github.ts): load
and authorize; a missing linked repository is a success-shaped no-op;
otherwise resolve the token and delete through the provider. -/
def deleteArticleFromGitHub (env : Env) (db : DbState) (w : World)
    (articleId userId : String) : Except Err DelRes × DbState × World :=
  match findArticleWithSite db articleId with
  | none => (.error (.articleNotFound articleId), db, w)
  | some (a, s) =>
    if s.userId = userId then
      if gitRepoLinked s then
        match getUserGitHubToken env db userId with
        | (.error e, db2) => (.error e, db2, w)
        | (.ok _tok, db2) =>
          match deleteArticleFromRepo w (gitRepoOf s) a.slug with
          | (.error e, w2) => (.error e, db2, w2)
          | (.ok r, w2) => (.ok r, db2, w2)
      else
        (.ok { deleted := false,
               reason := some "Site does not have a linked Git repository",
               filePath := none }, db, w)
    else (.error (.articleAccessDenied articleId userId), db, w)

/-- Response shape of `importArticlesFromGitHub`. -/
structure ImportRes where
  imported : Nat
  total : Nat
  articles : List Article
deriving DecidableEq, Repr

/-- The per-file import loop: skip a parsed article whose (site, slug)
already exists, otherwise insert a fresh row.  The database is re-read on
every iteration, so a second file with the same slug is skipped. -/
def importLoop (siteId : String) : List ImportedArticle → DbState →
    DbState × List Article
  | [], db => (db, [])
  | a :: rest, db =>
    if db.articles.any (fun x => x.siteId == siteId && x.slug == a.slug) then
      importLoop siteId rest db
    else
      let row : Article :=
        { id := "art:" ++ siteId ++ ":" ++ a.slug, siteId := siteId,
          title := a.title, slug := a.slug, content := a.content,
          status := a.status }
      let (db2, created) :=
        importLoop siteId rest { db with articles := db.articles ++ [row] }
      (db2, row :: created)

/-- Translation of `importArticlesFromGitHub` (article-github.ts): load
and authorize the site, require a linked repository, resolve the token,
list and fetch the markdown files (a fetch failure fails the whole batch,
since the source `try`/`catch` cannot intercept Effect failures), then
run the skip-or-insert loop and return counts. -/
def importArticlesFromGitHub (env : Env) (db : DbState) (w : World)
    (siteId userId : String) : Except Err ImportRes × DbState × World :=
  match db.sites.find? (fun s => s.id == siteId) with
  | none => (.error (.siteAccess siteId userId), db, w)
  | some s =>
    if s.userId = userId then
      if gitRepoLinked s then
        match getUserGitHubToken env db userId with
        | (.error e, db2) => (.error e, db2, w)
        | (.ok _tok, db2) =>
          match getMarkdownFilesFromRepo w (gitRepoOf s) "main" with
          | .error e => (.error e, db2, w)
          | .ok arts =>
            let (db3, created) := importLoop s.id arts db2
            (.ok { imported := created.length, total := arts.length,
                   articles := created }, db3, w)
      else
        (.error (.plain "Site does not have a linked GitHub repository"),
          db, w)
    else (.error (.siteAccess siteId userId), db, w)

/-!
Repository provisioning (part_002): placeholder substitution with the
retry/backoff schedule, and `createRepositoryWithPages`.
-/

/-- Template substitution payload. -/
structure TemplateData where
  siteName : String
  siteDescription : String
  siteNameSlug : String
  siteAuthor : String
  githubUsername : String

/-- Creation request payload. -/
structure CreateRepoData where
  name : String
  description : Option String
  templateOwner : Option String
  templateRepo : Option String

/-- The fixed placeholder mapping, in source order.  The literal braces
of the tokens are written with hexadecimal escapes. -/
def placeholderPairs (td : TemplateData) : List (String × String) :=
  [("\x7b\x7bSITE_NAME\x7d\x7d", td.siteName),
   ("\x7b\x7bSITE_DESCRIPTION\x7d\x7d", td.siteDescription),
   ("\x7b\x7bSITE_NAME_SLUG\x7d\x7d", td.siteNameSlug),
   ("\x7b\x7bSITE_AUTHOR\x7d\x7d", td.siteAuthor),
   ("\x7b\x7bGITHUB_USERNAME\x7d\x7d", td.githubUsername)]

/-- String-level global literal replacement. -/
def replaceAllStr (pat repl s : String) : String :=
  String.mk (replaceAllS pat.data repl.data s.data)

/-- String-level `includes`. -/
def hasSubStr (pat s : String) : Bool :=
  hasSub pat.data s.data

/-- Text-like extensions whose files undergo substitution. -/
def shouldProcessFile (path : String) : Bool :=
  [".html", ".css", ".js", ".json", ".md", ".yml", ".yaml", ".txt"].any
    (fun ext => endsWithStr path ext)

/-- Translation of `processFileWithPlaceholders`: fetch, substitute every
occurring placeholder, and write back with the previous sha when
anything changed. -/
def processFileWithPlaceholders (w : World) (path : String)
    (pairs : List (String × String)) : Except Err World :=
  match getFileContentW w path with
  | .error e => .error e
  | .ok fileData =>
    let step := pairs.foldl
      (fun (acc : String × Bool) pr =>
        if hasSubStr pr.1 acc.1 then (replaceAllStr pr.1 pr.2 acc.1, true)
        else acc)
      (fileData.content, false)
    if step.2 then
      match putFileW w path step.1
          ("Replace template placeholders in " ++ path) (some fileData.sha) with
      | .error e => .error e
      | .ok (_, w2) => .ok w2
    else .ok w

/-- Sequential substitution over the listed files (deliberately serial in
the source to respect rate limits); the first failure aborts, keeping the
writes already performed. -/
def processFiles : World → List String → TemplateData →
    Except Err Unit × World
  | w, [], _ => (.ok (), w)
  | w, p :: ps, td =>
    if shouldProcessFile p then
      match processFileWithPlaceholders w p (placeholderPairs td) with
      | .error e => (.error e, w)
      | .ok w2 => processFiles w2 ps td
    else processFiles w ps td

/-- The retry whitelist of the tree listing: status 409 or 422, or the
empty-repository message substring.  Errors reaching this predicate are
always client errors carrying a message and status. -/
def isRetryableTreeError : Err → Bool
  | .api message status =>
    status == some 409 || status == some 422 ||
      hasSub (str "Git Repository is empty") message.data
  | _ => false

/-- The retried tree listing.  `stub` gives the outcome of each attempt
(the remote is attempt-indexed to model transient readiness); `left` is
the number of retries the schedule still allows (`Schedule.recurs 9`
intersected with `Schedule.exponential 1000`, gated by the whitelist).
Returns the outcome, the number of attempts performed, and the backoff
delays slept in milliseconds. -/
def retryGetFiles (stub : Nat → Except Err (List String)) :
    Nat → Nat → Except Err (List String) × Nat × List Nat
  | i, 0 =>
    match stub i with
    | .ok v => (.ok v, 1, [])
    | .error e => (.error e, 1, [])
  | i, left + 1 =>
    match stub i with
    | .ok v => (.ok v, 1, [])
    | .error e =>
      if isRetryableTreeError e then
        let r := retryGetFiles stub (i + 1) left
        (r.1, r.2.1 + 1, (1000 * 2 ^ i) :: r.2.2)
      else (.error e, 1, [])

/-- Outcome record of a substitution run. -/
structure SubstRun where
  result : Except Err Bool
  world : World
  attempts : Nat
  retryDelays : List Nat

/-- Translation of `replaceTemplatePlaceholders` (part_002): an initial
fixed 1s sleep, the tree listing retried up to 9 times (10 attempts) with
exponential backoff from 1s gated on the whitelist, then sequential
per-file substitution. -/
def replaceTemplatePlaceholders (stub : Nat → Except Err (List String))
    (w : World) (td : TemplateData) : SubstRun :=
  let listing := retryGetFiles stub 0 9
  match listing.1 with
  | .error e =>
    { result := .error e, world := w, attempts := listing.2.1,
      retryDelays := listing.2.2 }
  | .ok files =>
    match processFiles w files td with
    | (.ok _, w2) =>
      { result := .ok true, world := w2, attempts := listing.2.1,
        retryDelays := listing.2.2 }
    | (.error e, w2) =>
      { result := .error e, world := w2, attempts := listing.2.1,
        retryDelays := listing.2.2 }

/-- Repository metadata returned by the generate endpoint. -/
structure RepoInfo where
  id : Nat
  name : String
  fullName : String
  htmlUrl : String
  cloneUrl : String
  defaultBranch : String
deriving DecidableEq, Repr

/-- Provisioned repository returned on success. -/
structure GitRepoOut where
  id : Nat
  name : String
  fullName : String
  htmlUrl : String
  cloneUrl : String
  defaultBranch : String
  pagesUrl : String
deriving DecidableEq, Repr

/-- Stubbed remote surface of the provisioning flow: the generate call,
the attempt-indexed tree listing, the file store, and the
pages-enablement call. -/
structure ApiStub where
  generate : Except Err RepoInfo
  treeStub : Nat → Except Err (List String)
  world : World
  pages : Except Err Unit

/-- The pages URL is derived from the first two slash-separated segments
of the full name, never read back from the response. -/
def pagesUrlFor (fullName : String) : String :=
  let owner := String.mk (fullName.data.takeWhile (fun c => c ≠ '/'))
  let repo := String.mk
    ((fullName.data.drop (owner.length + 1)).takeWhile (fun c => c ≠ '/'))
  "https://" ++ owner ++ ".github.io/" ++ repo

/-- `enableGitHubPages` piped through its `Effect.catchAll`: a failure
becomes `PagesDeploymentError` with the full repository name; the caught
value is a plain error object, never an `Error` instance, so the reason
falls back to the generic message. -/
def enableGitHubPagesWrapped (fullName : String) (pages : Except Err Unit) :
    Except Err String :=
  match pages with
  | .ok _ => .ok (pagesUrlFor fullName)
  | .error _ => .error (.pagesDeployment fullName "Unknown error")

/-- The generator body of `createRepositoryWithPages` before its final
`Effect.catchAll`: create from template, substitute placeholders when
template data is supplied, enable pages. -/
def createRepoFlow (api : ApiStub) (td : Option TemplateData) :
    Except Err GitRepoOut × World :=
  match api.generate with
  | .error e => (.error e, api.world)
  | .ok repo =>
    let afterSubst : Except Err Unit × World :=
      match td with
      | some t =>
        let run := replaceTemplatePlaceholders api.treeStub api.world t
        match run.result with
        | .ok _ => (.ok (), run.world)
        | .error e => (.error e, run.world)
      | none => (.ok (), api.world)
    match afterSubst with
    | (.error e, w2) => (.error e, w2)
    | (.ok _, w2) =>
      match enableGitHubPagesWrapped repo.fullName api.pages with
      | .error e => (.error e, w2)
      | .ok pagesUrl =>
        (.ok { id := repo.id, name := repo.name, fullName := repo.fullName,
               htmlUrl := repo.htmlUrl, cloneUrl := repo.cloneUrl,
               defaultBranch := repo.defaultBranch, pagesUrl := pagesUrl },
          w2)

/-- Translation of `createRepositoryWithPages` (part_002): the generator
body piped through a final `Effect.catchAll` that re-fails EVERY failure
(including the `PagesDeploymentError` built inside) as
`RepositoryCreationError` with the requested short name; the caught value
is a plain object, never an `Error` instance, so the reason is always the
generic message. -/
def createRepositoryWithPages (api : ApiStub) (data : CreateRepoData)
    (td : Option TemplateData) : Except Err GitRepoOut × World :=
  match createRepoFlow api td with
  | (.ok r, w2) => (.ok r, w2)
  | (.error _, w2) => (.error (.repoCreation data.name "Unknown error"), w2)

/-- Discriminator: does a provisioning outcome fail with
`PagesDeploymentError`? -/
def failsWithPagesError (r : Except Err GitRepoOut × World) : Bool :=
  match r.1 with
  | .error (.pagesDeployment _ _) => true
  | _ => false

/-!
Concrete fixtures used by the witness theorems.
-/

/-- Fixture: a site owned by user1 with a linked repository. -/
def siteA : Site :=
  { id := "site1", userId := "user1", name := "blog",
    gitRepo := some "alice/blog", platform := "github",
    deployStatus := "deployed" }

/-- Fixture: a site owned by user1 without a linked repository. -/
def siteNoRepo : Site :=
  { id := "site2", userId := "user1", name := "scratch", gitRepo := none,
    platform := "github", deployStatus := "pending" }

/-- Fixture: a draft article on the linked site. -/
def artA : Article :=
  { id := "a1", siteId := "site1", title := "Hello", slug := "hello",
    content := "Hi there", status := .draft }

/-- Fixture: an article on the repository-less site. -/
def artB : Article :=
  { id := "a2", siteId := "site2", title := "Note", slug := "note",
    content := "text", status := .draft }

/-- Fixture: a stored GitHub integration for user1. -/
def intA : GitIntegration :=
  { userId := "user1", platform := "github", platformUsername := "alice",
    accessToken := "tok123" }

/-- Fixture database. -/
def dbA : DbState :=
  { sites := [siteA, siteNoRepo], articles := [artA, artB],
    integrations := [intA] }

/-- Fixture database with no integrations. -/
def dbNoInt : DbState :=
  { sites := [siteA], articles := [artA], integrations := [] }

/-- Environment whose validation probe always accepts. -/
def envOk : Env :=
  { validate := fun _ => { isValid := true, reason := none } }

/-- Environment whose validation probe rejects with a provider reason. -/
def envBad : Env :=
  { validate := fun _ => { isValid := false, reason := some "expired" } }

/-- Empty hosted repository. -/
def wEmpty : World := { files := [], broken := [], counter := 0 }

/-- Hosted repository already containing the published form of the
fixture article's path. -/
def wWithFile : World :=
  { files := [{ path := "content/hello.md", content := "old", sha := "sha9" }],
    broken := [], counter := 0 }

/-- Hosted repository whose second markdown file fails on content GET. -/
def wBroken : World :=
  { files := [{ path := "content/hello.md",
                content := "---\ntitle: A\n---\nRemote body", sha := "s1" }],
    broken := ["content/b.md"], counter := 0 }

/-- Hosted repository with one already-imported slug (holding different
remote content) and one fresh markdown file. -/
def wImp : World :=
  { files := [{ path := "content/hello.md", content := "New remote content",
                sha := "s1" },
              { path := "content/fresh.md", content := "Fresh body",
                sha := "s2" }],
    broken := [], counter := 0 }

/-- Empty site-update payload. -/
def usdNone : UpdateSiteData := ⟨none, none, none, none⟩

/-- Empty article-update payload. -/
def uadNone : UpdateArticleData := ⟨none, none, none, none⟩

/-- Fixture template data. -/
def tdA : TemplateData :=
  { siteName := "My Site", siteDescription := "desc", siteNameSlug := "my-site",
    siteAuthor := "alice", githubUsername := "alice" }

/-- Fixture creation request. -/
def crData : CreateRepoData :=
  { name := "my-site", description := none, templateOwner := some "inland",
    templateRepo := some "tpl" }

/-- Fixture repository metadata. -/
def repoA : RepoInfo :=
  { id := 7, name := "my-site", fullName := "alice/my-site",
    htmlUrl := "https://x/h", cloneUrl := "https://x/c",
    defaultBranch := "main" }

/-- Listing stub: nine retryable conflicts, then an empty tree. -/
def stubOk9 : Nat → Except Err (List String) := fun i =>
  if i < 9 then .error (.api "conflict" (some 409)) else .ok []

/-- Listing stub: every attempt fails with a retryable conflict. -/
def stubFail : Nat → Except Err (List String) := fun _ =>
  .error (.api "Git Repository is empty" (some 409))

/-- Listing stub: the first attempt fails outside the whitelist. -/
def stubFatal : Nat → Except Err (List String) := fun _ =>
  .error (.api "boom" (some 500))

/-- Provisioning stub where only pages enablement fails. -/
def apiPagesFail : ApiStub :=
  { generate := .ok repoA, treeStub := fun _ => .ok [], world := wEmpty,
    pages := .error (.api "pages failed" (some 422)) }

/-- Plain-text body of exactly 150 characters. -/
def body150 : List Char := List.replicate 150 'a'

/-- Plain-text body of exactly 151 characters. -/
def body151 : List Char := List.replicate 151 'a'

/-- Plain-text body of 200 characters whose only space is at
position 120. -/
def body200 : List Char :=
  List.replicate 120 'a' ++ ' ' :: List.replicate 79 'b'

/-- Status of a stored article, looked up by id. -/
def statusOf (db : DbState) (id : String) : Option ArtStatus :=
  (db.articles.find? (fun a => a.id == id)).map (fun a => a.status)

/-- Success discriminator of a publish outcome. -/
def pubIsOk (r : Except Err PublishOut) : Bool :=
  match r with
  | .ok _ => true
  | .error _ => false

/-- Hosted file path of a successful publish outcome. -/
def pubFilePath (r : Except Err PublishOut) : Option String :=
  match r with
  | .ok o => some o.filePath
  | .error _ => none

/-- Update flag of a successful publish outcome. -/
def pubWasUpdate (r : Except Err PublishOut) : Option Bool :=
  match r with
  | .ok o => some o.wasUpdate
  | .error _ => none

/-!
Claim theorems.
-/

/-- C10: the database-side `deleteArticle` never contacts the hosting
provider: for every owned article it removes exactly the database row,
leaves the hosted world untouched, and returns `gitHubDeleted = false`
and `gitHubError = null` unconditionally. -/
theorem c10_delete_article_frame :
    ∀ (db : DbState) (w : World) (articleId userId : String)
      (a : Article) (s : Site),
      findArticleWithSite db articleId = some (a, s) →
      s.userId = userId →
      deleteArticleOp db w articleId userId =
        (.ok { article := a, gitHubDeleted := false, gitHubError := none,
               hasGitHubRepo := gitRepoLinked s },
         { db with
           articles := db.articles.eraseP (fun x => x.id == articleId) },
         w) := by
  intro db w articleId userId a s h1 h2
  simp [deleteArticleOp, h1, h2]

/-- Witness for C10 at the fixture database. -/
theorem c10_delete_article_frame_witness :
    findArticleWithSite dbA "a1" = some (artA, siteA) ∧
    siteA.userId = "user1" ∧
    deleteArticleOp dbA wEmpty "a1" "user1" =
      (.ok { article := artA, gitHubDeleted := false, gitHubError := none,
             hasGitHubRepo := gitRepoLinked siteA },
       { dbA with
         articles := dbA.articles.eraseP (fun x => x.id == "a1") },
       wEmpty) :=
  ⟨by decide, by decide,
    c10_delete_article_frame dbA wEmpty "a1" "user1" artA siteA
      (by decide) (by decide)⟩

/-- C3: ownership gate.  For every database in which the owning site row
exists but belongs to a different user, each of the seven operations
(updateSite, deleteSite, updateArticle, deleteArticle, publish,
delete-from-repo, import) fails with its access-denied error and mutates
neither the database nor the hosted state. -/
theorem c3_ownership_gate :
    (∀ (db : DbState) (w : World) (siteId userId : String)
       (d : UpdateSiteData) (s : Site),
       db.sites.find? (fun x => x.id == siteId) = some s →
       s.userId ≠ userId →
       updateSiteOp db w siteId userId d =
         (.error (.siteAccessDenied siteId userId), db, w)) ∧
    (∀ (db : DbState) (w : World) (siteId userId : String) (s : Site),
       db.sites.find? (fun x => x.id == siteId) = some s →
       s.userId ≠ userId →
       deleteSiteOp db w siteId userId =
         (.error (.siteAccessDenied siteId userId), db, w)) ∧
    (∀ (db : DbState) (w : World) (articleId userId : String)
       (d : UpdateArticleData) (a : Article) (s : Site),
       findArticleWithSite db articleId = some (a, s) →
       s.userId ≠ userId →
       updateArticleOp db w articleId userId d =
         (.error (.articleAccessDenied articleId userId), db, w)) ∧
    (∀ (db : DbState) (w : World) (articleId userId : String)
       (a : Article) (s : Site),
       findArticleWithSite db articleId = some (a, s) →
       s.userId ≠ userId →
       deleteArticleOp db w articleId userId =
         (.error (.articleAccessDenied articleId userId), db, w)) ∧
    (∀ (env : Env) (db : DbState) (w : World)
       (articleId userId today : String) (a : Article) (s : Site),
       findArticleWithSite db articleId = some (a, s) →
       s.userId ≠ userId →
       publishArticleToGitHub env db w articleId userId today =
         (.error (.articleAccessDenied articleId userId), db, w)) ∧
    (∀ (env : Env) (db : DbState) (w : World) (articleId userId : String)
       (a : Article) (s : Site),
       findArticleWithSite db articleId = some (a, s) →
       s.userId ≠ userId →
       deleteArticleFromGitHub env db w articleId userId =
         (.error (.articleAccessDenied articleId userId), db, w)) ∧
    (∀ (env : Env) (db : DbState) (w : World) (siteId userId : String)
       (s : Site),
       db.sites.find? (fun x => x.id == siteId) = some s →
       s.userId ≠ userId →
       importArticlesFromGitHub env db w siteId userId =
         (.error (.siteAccess siteId userId), db, w)) := by
  refine ⟨?_, ?_, ?_, ?_, ?_, ?_, ?_⟩
  · intro db w siteId userId d s h1 h2
    simp [updateSiteOp, h1, h2]
  · intro db w siteId userId s h1 h2
    simp [deleteSiteOp, h1, h2]
  · intro db w articleId userId d a s h1 h2
    simp [updateArticleOp, h1, h2]
  · intro db w articleId userId a s h1 h2
    simp [deleteArticleOp, h1, h2]
  · intro env db w articleId userId today a s h1 h2
    simp [publishArticleToGitHub, h1, h2]
  · intro env db w articleId userId a s h1 h2
    simp [deleteArticleFromGitHub, h1, h2]
  · intro env db w siteId userId s h1 h2
    simp [importArticlesFromGitHub, h1, h2]

/-- Witness for C3: all seven operations denied for caller mallory on the
fixture database, with both states returned unchanged. -/
theorem c3_ownership_gate_witness :
    dbA.sites.find? (fun x => x.id == "site1") = some siteA ∧
    siteA.userId ≠ "mallory" ∧
    findArticleWithSite dbA "a1" = some (artA, siteA) ∧
    updateSiteOp dbA wEmpty "site1" "mallory" usdNone =
      (.error (.siteAccessDenied "site1" "mallory"), dbA, wEmpty) ∧
    deleteSiteOp dbA wEmpty "site1" "mallory" =
      (.error (.siteAccessDenied "site1" "mallory"), dbA, wEmpty) ∧
    updateArticleOp dbA wEmpty "a1" "mallory" uadNone =
      (.error (.articleAccessDenied "a1" "mallory"), dbA, wEmpty) ∧
    deleteArticleOp dbA wEmpty "a1" "mallory" =
      (.error (.articleAccessDenied "a1" "mallory"), dbA, wEmpty) ∧
    publishArticleToGitHub envOk dbA wEmpty "a1" "mallory" "2026-10-11" =
      (.error (.articleAccessDenied "a1" "mallory"), dbA, wEmpty) ∧
    deleteArticleFromGitHub envOk dbA wEmpty "a1" "mallory" =
      (.error (.articleAccessDenied "a1" "mallory"), dbA, wEmpty) ∧
    importArticlesFromGitHub envOk dbA wEmpty "site1" "mallory" =
      (.error (.siteAccess "site1" "mallory"), dbA, wEmpty) :=
  ⟨by decide, by decide, by decide,
    c3_ownership_gate.1 dbA wEmpty "site1" "mallory" usdNone siteA
      (by decide) (by decide),
    c3_ownership_gate.2.1 dbA wEmpty "site1" "mallory" siteA
      (by decide) (by decide),
    c3_ownership_gate.2.2.1 dbA wEmpty "a1" "mallory" uadNone artA siteA
      (by decide) (by decide),
    c3_ownership_gate.2.2.2.1 dbA wEmpty "a1" "mallory" artA siteA
      (by decide) (by decide),
    c3_ownership_gate.2.2.2.2.1 envOk dbA wEmpty "a1" "mallory" "2026-10-11"
      artA siteA (by decide) (by decide),
    c3_ownership_gate.2.2.2.2.2.1 envOk dbA wEmpty "a1" "mallory" artA siteA
      (by decide) (by decide),
    c3_ownership_gate.2.2.2.2.2.2 envOk dbA wEmpty "site1" "mallory" siteA
      (by decide) (by decide)⟩

/-- C9: the access-token resolver fails with a distinct no-integration
message when no stored token exists; on a failed validation probe it
clears the stored token and fails with the provider reason (or the
generic default); on a successful probe it returns the stored token with
the database untouched. -/
theorem c9_token_resolver :
    (∀ (env : Env) (db : DbState) (userId : String),
       getGitHubTokenDb db userId = none →
       getUserGitHubToken env db userId =
         (.error (.tokenError "No GitHub integration found for user"), db)) ∧
    (∀ (env : Env) (db : DbState) (userId tok : String),
       getGitHubTokenDb db userId = some tok →
       (env.validate tok).isValid = false →
       getUserGitHubToken env db userId =
         (.error (.tokenError (reasonOrDefault (env.validate tok).reason)),
          clearGitHubTokenDb db userId)) ∧
    (∀ (env : Env) (db : DbState) (userId tok : String),
       getGitHubTokenDb db userId = some tok →
       (env.validate tok).isValid = true →
       getUserGitHubToken env db userId = (.ok tok, db)) := by
  refine ⟨?_, ?_, ?_⟩
  · intro env db userId h
    simp [getUserGitHubToken, h]
  · intro env db userId tok h1 h2
    simp [getUserGitHubToken, h1, h2]
  · intro env db userId tok h1 h2
    simp [getUserGitHubToken, h1, h2]

/-- Witness for C9: the three resolver behaviours at the fixtures,
including the concrete cleared integration row. -/
theorem c9_token_resolver_witness :
    getGitHubTokenDb dbNoInt "user1" = none ∧
    getUserGitHubToken envOk dbNoInt "user1" =
      (.error (.tokenError "No GitHub integration found for user"),
        dbNoInt) ∧
    getGitHubTokenDb dbA "user1" = some "tok123" ∧
    (envBad.validate "tok123").isValid = false ∧
    getUserGitHubToken envBad dbA "user1" =
      (.error
        (.tokenError (reasonOrDefault (envBad.validate "tok123").reason)),
        clearGitHubTokenDb dbA "user1") ∧
    (clearGitHubTokenDb dbA "user1").integrations =
      [{ userId := "user1", platform := "github",
         platformUsername := "alice", accessToken := "" }] ∧
    getUserGitHubToken envOk dbA "user1" = (.ok "tok123", dbA) :=
  ⟨by decide,
    c9_token_resolver.1 envOk dbNoInt "user1" (by decide),
    by decide, by decide,
    c9_token_resolver.2.1 envBad dbA "user1" "tok123" (by decide) (by decide),
    by decide,
    c9_token_resolver.2.2 envOk dbA "user1" "tok123" (by decide) (by decide)⟩

/-- C8: `deleteArticleFromRepo` is a success-shaped no-op in the absent
cases: without a linked repository it returns deleted=false with a
reason; on a 404 probe it returns deleted=false with the file-not-found
reason; otherwise it issues the DELETE with the probed sha (the stored
file is removed) and returns deleted=true with the hosted path. -/
theorem c8_delete_noop_shapes :
    (∀ (env : Env) (db : DbState) (w : World) (articleId userId : String)
       (a : Article) (s : Site),
       findArticleWithSite db articleId = some (a, s) →
       s.userId = userId →
       gitRepoLinked s = false →
       deleteArticleFromGitHub env db w articleId userId =
         (.ok { deleted := false,
                reason := some "Site does not have a linked Git repository",
                filePath := none }, db, w)) ∧
    (∀ (env : Env) (db : DbState) (w : World) (articleId userId tok : String)
       (a : Article) (s : Site),
       findArticleWithSite db articleId = some (a, s) →
       s.userId = userId →
       gitRepoLinked s = true →
       getUserGitHubToken env db userId = (.ok tok, db) →
       ("content/" ++ a.slug ++ ".md") ∉ w.broken →
       w.files.find? (fun f => f.path == "content/" ++ a.slug ++ ".md") =
         none →
       deleteArticleFromGitHub env db w articleId userId =
         (.ok { deleted := false, reason := some "File not found",
                filePath := none }, db, w)) ∧
    (∀ (env : Env) (db : DbState) (w : World) (articleId userId tok : String)
       (a : Article) (s : Site) (e : FileEntry),
       findArticleWithSite db articleId = some (a, s) →
       s.userId = userId →
       gitRepoLinked s = true →
       getUserGitHubToken env db userId = (.ok tok, db) →
       ("content/" ++ a.slug ++ ".md") ∉ w.broken →
       w.files.find? (fun f => f.path == "content/" ++ a.slug ++ ".md") =
         some e →
       deleteArticleFromGitHub env db w articleId userId =
         (.ok { deleted := true, reason := none,
                filePath := some ("content/" ++ a.slug ++ ".md") }, db,
          { w with files := (w.files.filter
              (fun f => f.path != "content/" ++ a.slug ++ ".md")) })) := by
  refine ⟨?_, ?_, ?_⟩
  · intro env db w articleId userId a s h1 h2 h3
    simp [deleteArticleFromGitHub, h1, h2, h3]
  · intro env db w articleId userId tok a s h1 h2 h3 h4 h5 h6
    simp [deleteArticleFromGitHub, h1, h2, h3, h4, deleteArticleFromRepo,
      getFileOrNull, getFileContentW, h5, h6]
  · intro env db w articleId userId tok a s e h1 h2 h3 h4 h5 h6
    simp [deleteArticleFromGitHub, h1, h2, h3, h4, deleteArticleFromRepo,
      getFileOrNull, getFileContentW, h5, h6, deleteFileW]

/-- Witness for C8: the three delete shapes at the fixtures (no linked
repository, absent hosted file, present hosted file). -/
theorem c8_delete_noop_shapes_witness :
    findArticleWithSite dbA "a2" = some (artB, siteNoRepo) ∧
    gitRepoLinked siteNoRepo = false ∧
    deleteArticleFromGitHub envOk dbA wEmpty "a2" "user1" =
      (.ok { deleted := false,
             reason := some "Site does not have a linked Git repository",
             filePath := none }, dbA, wEmpty) ∧
    findArticleWithSite dbA "a1" = some (artA, siteA) ∧
    getUserGitHubToken envOk dbA "user1" = (.ok "tok123", dbA) ∧
    deleteArticleFromGitHub envOk dbA wEmpty "a1" "user1" =
      (.ok { deleted := false, reason := some "File not found",
             filePath := none }, dbA, wEmpty) ∧
    deleteArticleFromGitHub envOk dbA wWithFile "a1" "user1" =
      (.ok { deleted := true, reason := none,
             filePath := some ("content/" ++ artA.slug ++ ".md") }, dbA,
       { wWithFile with files := (wWithFile.files.filter
           (fun f => f.path != "content/" ++ artA.slug ++ ".md")) }) :=
  ⟨by decide, by decide,
    c8_delete_noop_shapes.1 envOk dbA wEmpty "a2" "user1" artB siteNoRepo
      (by decide) (by decide) (by decide),
    by decide, by decide,
    c8_delete_noop_shapes.2.1 envOk dbA wEmpty "a1" "user1" "tok123" artA
      siteA (by decide) (by decide) (by decide) (by decide) (by decide)
      (by decide),
    c8_delete_noop_shapes.2.2 envOk dbA wWithFile "a1" "user1" "tok123" artA
      siteA { path := "content/hello.md", content := "old", sha := "sha9" }
      (by decide) (by decide) (by decide) (by decide) (by decide)
      (by decide)⟩

/-- C5 (failing input): the skip-existing invariant itself holds — with
all fetches succeeding, a file whose slug already exists leaves the
stored article untouched, is excluded from `imported` and still counted
in `total` — but a single failing per-file content fetch ABORTS the whole
batch with that error instead of being skipped: the source wraps the
fetch in a JavaScript `try`/`catch` inside `Effect.gen`, which cannot
intercept the typed Effect failure, so no counts are returned. -/
theorem c5_import_batch_behavior :
    importArticlesFromGitHub envOk dbA wBroken "site1" "user1" =
      (.error (.api "GitHub API error: server error" (some 500)), dbA,
        wBroken) ∧
    importArticlesFromGitHub envOk dbA wImp "site1" "user1" =
      (.ok { imported := 1, total := 2,
             articles := [{ id := "art:site1:fresh", siteId := "site1",
                            title := "Fresh", slug := "fresh",
                            content := "Fresh body",
                            status := .published }] },
       { dbA with articles := dbA.articles ++
           [{ id := "art:site1:fresh", siteId := "site1", title := "Fresh",
              slug := "fresh", content := "Fresh body",
              status := .published }] },
       wImp) := by
  refine ⟨by decide, by decide⟩

/-- C2 (counterexample): with creation and placeholder substitution
succeeding and only pages enablement failing, `createRepositoryWithPages`
does NOT fail with `PagesDeploymentError` — its final catch-all re-fails
the provisioning as `RepositoryCreationError` with the requested short
name and the generic reason. -/
theorem c2_pages_error_counterexample :
    createRepositoryWithPages apiPagesFail crData (some tdA) =
      (.error (.repoCreation "my-site" "Unknown error"), wEmpty) ∧
    failsWithPagesError
      (createRepositoryWithPages apiPagesFail crData (some tdA)) = false := by
  exact ⟨by decide, by decide⟩

/-- C2 (amended): when creation and substitution succeed but pages
enablement fails, the generator body of the provisioning flow does build
the distinct `PagesDeploymentError` for the full repository name, but the
final `Effect.catchAll` of `createRepositoryWithPages` re-fails it as
`RepositoryCreationError` with the requested short name and the generic
reason, so the caller cannot distinguish the partial success. -/
theorem c2_pages_error_amended :
    ∀ (api : ApiStub) (data : CreateRepoData) (td : TemplateData)
      (repo : RepoInfo) (e : Err),
      api.generate = .ok repo →
      (replaceTemplatePlaceholders api.treeStub api.world td).result =
        .ok true →
      api.pages = .error e →
      createRepoFlow api (some td) =
        (.error (.pagesDeployment repo.fullName "Unknown error"),
         (replaceTemplatePlaceholders api.treeStub api.world td).world) ∧
      createRepositoryWithPages api data (some td) =
        (.error (.repoCreation data.name "Unknown error"),
         (replaceTemplatePlaceholders api.treeStub api.world td).world) := by
  intro api data td repo e h1 h2 h3
  have hflow : createRepoFlow api (some td) =
      (.error (.pagesDeployment repo.fullName "Unknown error"),
       (replaceTemplatePlaceholders api.treeStub api.world td).world) := by
    simp [createRepoFlow, h1, h2, h3, enableGitHubPagesWrapped]
  exact ⟨hflow, by simp [createRepositoryWithPages, hflow]⟩

/-- Witness for C2 (amended) at the pages-failure stub. -/
theorem c2_pages_error_amended_witness :
    apiPagesFail.generate = .ok repoA ∧
    (replaceTemplatePlaceholders apiPagesFail.treeStub apiPagesFail.world
      tdA).result = .ok true ∧
    apiPagesFail.pages = .error (.api "pages failed" (some 422)) ∧
    createRepoFlow apiPagesFail (some tdA) =
      (.error (.pagesDeployment repoA.fullName "Unknown error"),
       (replaceTemplatePlaceholders apiPagesFail.treeStub apiPagesFail.world
         tdA).world) ∧
    createRepositoryWithPages apiPagesFail crData (some tdA) =
      (.error (.repoCreation crData.name "Unknown error"),
       (replaceTemplatePlaceholders apiPagesFail.treeStub apiPagesFail.world
         tdA).world) :=
  ⟨by decide, by decide, by decide,
    (c2_pages_error_amended apiPagesFail crData tdA repoA
      (.api "pages failed" (some 422)) (by decide) (by decide) (by decide)).1,
    (c2_pages_error_amended apiPagesFail crData tdA repoA
      (.api "pages failed" (some 422)) (by decide) (by decide)
      (by decide)).2⟩

/-- Retry lemma: with `left` retries available, retryable failures at the
first `left` attempts and success at the next one produce that success
after exactly `left + 1` attempts. -/
theorem retryGetFiles_ok (stub : Nat → Except Err (List String))
    (tree : List String) :
    ∀ (left i : Nat),
      (∀ j, j < left → ∃ e, stub (i + j) = .error e ∧
        isRetryableTreeError e = true) →
      stub (i + left) = .ok tree →
      (retryGetFiles stub i left).1 = .ok tree ∧
      (retryGetFiles stub i left).2.1 = left + 1 := by
  intro left
  induction left with
  | zero =>
    intro i _hfail hok
    have hok2 : stub i = .ok tree := by simpa using hok
    simp [retryGetFiles, hok2]
  | succ left ih =>
    intro i hfail hok
    obtain ⟨e, he, hr⟩ := hfail 0 (by omega)
    have he2 : stub i = .error e := by simpa using he
    have ihh := ih (i + 1)
      (fun j hj => by
        obtain ⟨e2, he3, hr2⟩ := hfail (j + 1) (by omega)
        refine ⟨e2, ?_, hr2⟩
        rw [show i + 1 + j = i + (j + 1) by omega]
        exact he3)
      (by rw [show i + 1 + left = i + (left + 1) by omega]; exact hok)
    simp [retryGetFiles, he2, hr, ihh.1, ihh.2]

/-- Retry lemma: with `left` retries available and retryable failures on
every attempt, the run performs exactly `left + 1` attempts, sleeps the
exponential backoff sequence, and surfaces the last attempt's error. -/
theorem retryGetFiles_fail (stub : Nat → Except Err (List String)) :
    ∀ (left i : Nat),
      (∀ j, j ≤ left → ∃ e, stub (i + j) = .error e ∧
        isRetryableTreeError e = true) →
      (∀ elast, stub (i + left) = .error elast →
        (retryGetFiles stub i left).1 = .error elast) ∧
      (retryGetFiles stub i left).2.1 = left + 1 ∧
      (retryGetFiles stub i left).2.2 =
        (List.range left).map (fun k => 1000 * 2 ^ (i + k)) := by
  intro left
  induction left with
  | zero =>
    intro i hfail
    obtain ⟨e, he, hr⟩ := hfail 0 (by omega)
    have he2 : stub i = .error e := by simpa using he
    refine ⟨?_, ?_, ?_⟩
    · intro elast hel
      have hel2 : stub i = .error elast := by simpa using hel
      rw [he2] at hel2
      cases hel2
      simp [retryGetFiles, he2]
    · simp [retryGetFiles, he2]
    · simp [retryGetFiles, he2]
  | succ left ih =>
    intro i hfail
    obtain ⟨e, he, hr⟩ := hfail 0 (by omega)
    have he2 : stub i = .error e := by simpa using he
    have ihh := ih (i + 1)
      (fun j hj => by
        obtain ⟨e2, he3, hr2⟩ := hfail (j + 1) (by omega)
        refine ⟨e2, ?_, hr2⟩
        rw [show i + 1 + j = i + (j + 1) by omega]
        exact he3)
    have hmap : (List.range (left + 1)).map (fun k => 1000 * 2 ^ (i + k)) =
        1000 * 2 ^ i ::
          (List.range left).map (fun k => 1000 * 2 ^ (i + 1 + k)) := by
      rw [List.range_succ_eq_map, List.map_cons, List.map_map]
      refine congrArg₂ _ (by simp) ?_
      refine List.map_congr_left (fun k _hk => ?_)
      simp only [Function.comp]
      have harg : i + (k + 1) = i + 1 + k := by omega
      rw [harg]
    refine ⟨?_, ?_, ?_⟩
    · intro elast hel
      have hel2 : stub (i + 1 + left) = .error elast := by
        rw [show i + 1 + left = i + (left + 1) by omega]; exact hel
      have := (ihh.1) elast hel2
      simp [retryGetFiles, he2, hr, this]
    · simp [retryGetFiles, he2, hr, ihh.2.1]
    · simp [retryGetFiles, he2, hr, ihh.2.2, hmap]

/-- C1: retry whitelist and bound of the tree listing inside placeholder
substitution.  Nine retryable failures followed by a success let the
substitution complete (10 attempts); ten consecutive retryable failures
exhaust the schedule after exactly 10 attempts with exponential backoff
from 1s doubling; a non-whitelisted failure propagates immediately after
a single attempt with no backoff. -/
theorem c1_retry_backoff_bound :
    (∀ (stub : Nat → Except Err (List String)) (w : World)
       (td : TemplateData) (tree : List String),
       (∀ j, j < 9 → ∃ e, stub j = .error e ∧
         isRetryableTreeError e = true) →
       stub 9 = .ok tree →
       (processFiles w tree td).1 = .ok () →
       (replaceTemplatePlaceholders stub w td).result = .ok true ∧
       (replaceTemplatePlaceholders stub w td).attempts = 10) ∧
    (∀ (stub : Nat → Except Err (List String)) (w : World)
       (td : TemplateData),
       (∀ j, j ≤ 9 → ∃ e, stub j = .error e ∧
         isRetryableTreeError e = true) →
       (∀ elast, stub 9 = .error elast →
         (replaceTemplatePlaceholders stub w td).result = .error elast) ∧
       (replaceTemplatePlaceholders stub w td).attempts = 10 ∧
       (replaceTemplatePlaceholders stub w td).retryDelays =
         (List.range 9).map (fun k => 1000 * 2 ^ k)) ∧
    (∀ (stub : Nat → Except Err (List String)) (w : World)
       (td : TemplateData) (e : Err),
       stub 0 = .error e →
       isRetryableTreeError e = false →
       (replaceTemplatePlaceholders stub w td).result = .error e ∧
       (replaceTemplatePlaceholders stub w td).attempts = 1 ∧
       (replaceTemplatePlaceholders stub w td).retryDelays = []) := by
  refine ⟨?_, ?_, ?_⟩
  · intro stub w td tree hfail hok hproc
    have hl := retryGetFiles_ok stub tree 9 0
      (fun j hj => by simpa using hfail j hj) (by simpa using hok)
    cases hp : processFiles w tree td with
    | mk fst snd =>
      have hfst : fst = .ok () := by rw [hp] at hproc; exact hproc
      subst hfst
      constructor
      · simp [replaceTemplatePlaceholders, hl.1, hp]
      · simp [replaceTemplatePlaceholders, hl.1, hl.2, hp]
  · intro stub w td hfail
    have hl := retryGetFiles_fail stub 9 0
      (fun j hj => by simpa using hfail j hj)
    refine ⟨?_, ?_, ?_⟩
    · intro elast hel
      have := hl.1 elast (by simpa using hel)
      simp [replaceTemplatePlaceholders, this]
    · simp [replaceTemplatePlaceholders, hl.2.1]
      cases hres : (retryGetFiles stub 0 9).1 with
      | error e => simp
      | ok v =>
        obtain ⟨e0, he0, _⟩ := hfail 9 (by omega)
        have := hl.1 e0 he0
        rw [hres] at this
        cases this
    · simp [replaceTemplatePlaceholders]
      cases hres : (retryGetFiles stub 0 9).1 with
      | error e => simpa [hres] using hl.2.2
      | ok v =>
        obtain ⟨e0, he0, _⟩ := hfail 9 (by omega)
        have := hl.1 e0 he0
        rw [hres] at this
        cases this
  · intro stub w td e he hr
    have hr2 : isRetryableTreeError e = false := hr
    refine ⟨?_, ?_, ?_⟩ <;>
      simp [replaceTemplatePlaceholders, retryGetFiles, he, hr2]

/-- Witness for C1: the three retry scenarios at concrete listing stubs
(nine 409s then an empty tree; constant 409s; an immediate 500). -/
theorem c1_retry_backoff_bound_witness :
    (replaceTemplatePlaceholders stubOk9 wEmpty tdA).result = .ok true ∧
    (replaceTemplatePlaceholders stubOk9 wEmpty tdA).attempts = 10 ∧
    (replaceTemplatePlaceholders stubFail wEmpty tdA).result =
      .error (.api "Git Repository is empty" (some 409)) ∧
    (replaceTemplatePlaceholders stubFail wEmpty tdA).attempts = 10 ∧
    (replaceTemplatePlaceholders stubFail wEmpty tdA).retryDelays =
      [1000, 2000, 4000, 8000, 16000, 32000, 64000, 128000, 256000] ∧
    (replaceTemplatePlaceholders stubFatal wEmpty tdA).result =
      .error (.api "boom" (some 500)) ∧
    (replaceTemplatePlaceholders stubFatal wEmpty tdA).attempts = 1 ∧
    (replaceTemplatePlaceholders stubFatal wEmpty tdA).retryDelays = [] :=
  ⟨(c1_retry_backoff_bound.1 stubOk9 wEmpty tdA []
      (fun j hj => ⟨.api "conflict" (some 409), by simp [stubOk9, hj],
        by decide⟩)
      (by decide) (by decide)).1,
   (c1_retry_backoff_bound.1 stubOk9 wEmpty tdA []
      (fun j hj => ⟨.api "conflict" (some 409), by simp [stubOk9, hj],
        by decide⟩)
      (by decide) (by decide)).2,
   (c1_retry_backoff_bound.2.1 stubFail wEmpty tdA
      (fun j _hj => ⟨.api "Git Repository is empty" (some 409), rfl,
        by decide⟩)).1
     (.api "Git Repository is empty" (some 409)) (by decide),
   (c1_retry_backoff_bound.2.1 stubFail wEmpty tdA
      (fun j _hj => ⟨.api "Git Repository is empty" (some 409), rfl,
        by decide⟩)).2.1,
   by decide,
   (c1_retry_backoff_bound.2.2 stubFatal wEmpty tdA
      (.api "boom" (some 500)) (by decide) (by decide)).1,
   (c1_retry_backoff_bound.2.2 stubFatal wEmpty tdA
      (.api "boom" (some 500)) (by decide) (by decide)).2.1,
   (c1_retry_backoff_bound.2.2 stubFatal wEmpty tdA
      (.api "boom" (some 500)) (by decide) (by decide)).2.2⟩

/-- Updating the status of one article by id commutes with looking that
article up. -/
theorem find_update_status (l : List Article) (id : String) :
    (l.map (fun x => if x.id == id then { x with status := ArtStatus.published }
      else x)).find? (fun x => x.id == id) =
    (l.find? (fun x => x.id == id)).map
      (fun a => { a with status := ArtStatus.published }) := by
  induction l with
  | nil => simp
  | cons h t ih =>
    by_cases hc : h.id = id
    · simp only [List.map_cons]
      have hpos1 : ((if (h.id == id) = true then
          ({ h with status := ArtStatus.published } : Article) else h).id ==
            id) = true := by
        simp [hc]
      have hpos2 : (h.id == id) = true := by simp [hc]
      rw [@List.find?_cons_of_pos Article (fun x => x.id == id) _ _ hpos1,
        @List.find?_cons_of_pos Article (fun x => x.id == id) _ _ hpos2]
      simp [hc]
    · simp only [List.map_cons]
      have hneg1 : ¬ ((if (h.id == id) = true then
          ({ h with status := ArtStatus.published } : Article) else h).id ==
            id) = true := by
        simp [hc]
      have hneg2 : ¬ (h.id == id) = true := by simp [hc]
      rw [@List.find?_cons_of_neg Article (fun x => x.id == id) _ _ hneg1,
        @List.find?_cons_of_neg Article (fun x => x.id == id) _ _ hneg2, ih]

/-- Inversion of a successful article-with-site lookup. -/
theorem findArticleWithSite_inv (db : DbState) (id : String) (a : Article)
    (s : Site) (h : findArticleWithSite db id = some (a, s)) :
    db.articles.find? (fun x => x.id == id) = some a ∧
    db.sites.find? (fun x => x.id == a.siteId) = some s := by
  unfold findArticleWithSite at h
  split at h
  next a2 heqA =>
    split at h
    next s2 heqS =>
      simp at h
      obtain ⟨hA, hS⟩ := h
      subst hA
      subst hS
      exact ⟨heqA, heqS⟩
    next => simp at h
  next => simp at h

/-- Inversion of a successful token resolution. -/
theorem getUserGitHubToken_ok_inv (env : Env) (db db2 : DbState)
    (userId tok : String)
    (h : getUserGitHubToken env db userId = (.ok tok, db2)) :
    getGitHubTokenDb db userId = some tok ∧
    (env.validate tok).isValid = true ∧ db2 = db := by
  unfold getUserGitHubToken at h
  split at h
  next => simp at h
  next t heq =>
    by_cases hv : (env.validate t).isValid
    · simp [hv] at h
      obtain ⟨h1, h2⟩ := h
      subst h1
      exact ⟨heq, hv, h2.symm⟩
    · simp [hv] at h

/-- Shape of a successful publish: the hosted file at
`content/slug.md` is written (update flag reflecting the probe), the
stored article's status is set to published, and the world gains the
rendered file under a fresh sha. -/
theorem publish_success (env : Env) (db : DbState) (w : World)
    (articleId userId today tok : String) (a : Article) (s : Site)
    (h1 : findArticleWithSite db articleId = some (a, s))
    (h2 : s.userId = userId)
    (h3 : gitRepoLinked s = true)
    (h4 : getUserGitHubToken env db userId = (.ok tok, db))
    (h5 : ("content/" ++ a.slug ++ ".md") ∉ w.broken) :
    publishArticleToGitHub env db w articleId userId today =
      (.ok { article := { a with status := .published }, published := true,
             filePath := "content/" ++ a.slug ++ ".md",
             commitSha := "commit" ++ toString w.counter,
             wasUpdate := (w.files.find?
               (fun f => f.path == "content/" ++ a.slug ++ ".md")).isSome },
       { db with articles := (db.articles.map (fun x =>
           if x.id == articleId then { x with status := .published }
           else x)) },
       { files := ({ path := "content/" ++ a.slug ++ ".md",
                     content := renderMarkdownS a.title today a.content,
                     sha := "blob" ++ toString w.counter } ::
                   (w.files.filter (fun f =>
                     f.path != "content/" ++ a.slug ++ ".md")))
         broken := w.broken
         counter := w.counter + 1 }) := by
  cases hf : w.files.find?
      (fun f => f.path == "content/" ++ a.slug ++ ".md") with
  | none =>
    simp [publishArticleToGitHub, h1, h2, h3, h4, publishArticleToRepo,
      getFileOrNull, getFileContentW, h5, hf, putFileW]
  | some e =>
    simp [publishArticleToGitHub, h1, h2, h3, h4, publishArticleToRepo,
      getFileOrNull, getFileContentW, h5, hf, putFileW]

/-- C7: publishing the same unchanged article twice targets the same
hosted path `content/slug.md` both times, succeeds both times, reports
`wasUpdate = true` on the second call (the probe finds the sha written by
the first), and leaves the stored status published after either call. -/
theorem c7_idempotent_publish :
    ∀ (env : Env) (db : DbState) (w : World)
      (articleId userId today tok : String) (a : Article) (s : Site),
      findArticleWithSite db articleId = some (a, s) →
      s.userId = userId →
      gitRepoLinked s = true →
      getUserGitHubToken env db userId = (.ok tok, db) →
      ("content/" ++ a.slug ++ ".md") ∉ w.broken →
      (pubIsOk (publishArticleToGitHub env db w articleId userId today).1 =
         true ∧
       pubFilePath (publishArticleToGitHub env db w articleId userId today).1 =
         some ("content/" ++ a.slug ++ ".md") ∧
       statusOf (publishArticleToGitHub env db w articleId userId today).2.1
         articleId = some .published) ∧
      (pubIsOk (publishArticleToGitHub env
          (publishArticleToGitHub env db w articleId userId today).2.1
          (publishArticleToGitHub env db w articleId userId today).2.2
          articleId userId today).1 = true ∧
       pubWasUpdate (publishArticleToGitHub env
          (publishArticleToGitHub env db w articleId userId today).2.1
          (publishArticleToGitHub env db w articleId userId today).2.2
          articleId userId today).1 = some true ∧
       pubFilePath (publishArticleToGitHub env
          (publishArticleToGitHub env db w articleId userId today).2.1
          (publishArticleToGitHub env db w articleId userId today).2.2
          articleId userId today).1 =
         some ("content/" ++ a.slug ++ ".md") ∧
       statusOf (publishArticleToGitHub env
          (publishArticleToGitHub env db w articleId userId today).2.1
          (publishArticleToGitHub env db w articleId userId today).2.2
          articleId userId today).2.1 articleId = some .published) := by
  intro env db w articleId userId today tok a s h1 h2 h3 h4 h5
  obtain ⟨hga, hgs⟩ := findArticleWithSite_inv db articleId a s h1
  obtain ⟨hg, hv, _⟩ := getUserGitHubToken_ok_inv env db db userId tok h4
  have hp1 := publish_success env db w articleId userId today tok a s
    h1 h2 h3 h4 h5
  have h1b : findArticleWithSite
      { db with articles := (db.articles.map (fun x =>
          if x.id == articleId then { x with status := .published }
          else x)) } articleId =
      some ({ a with status := .published }, s) := by
    unfold findArticleWithSite
    rw [show ({ db with articles := (db.articles.map (fun x =>
        if x.id == articleId then { x with status := ArtStatus.published }
        else x)) } : DbState).articles = (db.articles.map (fun x =>
        if x.id == articleId then { x with status := ArtStatus.published }
        else x)) from rfl]
    rw [find_update_status, hga]
    simp [hgs]
  have h4b : getUserGitHubToken env
      { db with articles := (db.articles.map (fun x =>
          if x.id == articleId then { x with status := .published }
          else x)) } userId =
      (.ok tok,
        { db with articles := (db.articles.map (fun x =>
            if x.id == articleId then { x with status := .published }
            else x)) }) := by
    unfold getUserGitHubToken
    rw [show getGitHubTokenDb
        { db with articles := (db.articles.map (fun x =>
            if x.id == articleId then { x with status := .published }
            else x)) } userId = getGitHubTokenDb db userId from rfl, hg]
    simp [hv]
  have hp2 := publish_success env
    { db with articles := (db.articles.map (fun x =>
        if x.id == articleId then { x with status := .published }
        else x)) }
    { files := ({ path := "content/" ++ a.slug ++ ".md",
                  content := renderMarkdownS a.title today a.content,
                  sha := "blob" ++ toString w.counter } ::
                (w.files.filter (fun f =>
                  f.path != "content/" ++ a.slug ++ ".md")))
      broken := w.broken
      counter := w.counter + 1 }
    articleId userId today tok { a with status := .published } s
    h1b h2 h3 h4b (by simpa using h5)
  refine ⟨⟨?_, ?_, ?_⟩, ⟨?_, ?_, ?_, ?_⟩⟩
  · simp only [hp1]; rfl
  · simp only [hp1]; rfl
  · simp only [hp1, statusOf]
    rw [find_update_status, hga]
    rfl
  · simp only [hp1, hp2]; rfl
  · simp only [hp1, hp2]
    simp [pubWasUpdate]
  · simp only [hp1, hp2]; rfl
  · simp only [hp1, hp2, statusOf]
    rw [find_update_status, find_update_status, hga]
    rfl

/-- Witness for C7: double publish of the fixture article against the
empty hosted repository. -/
theorem c7_idempotent_publish_witness :
    findArticleWithSite dbA "a1" = some (artA, siteA) ∧
    getUserGitHubToken envOk dbA "user1" = (.ok "tok123", dbA) ∧
    ((pubIsOk (publishArticleToGitHub envOk dbA wEmpty "a1" "user1"
        "2026-10-11").1 = true ∧
      pubFilePath (publishArticleToGitHub envOk dbA wEmpty "a1" "user1"
        "2026-10-11").1 = some ("content/" ++ artA.slug ++ ".md") ∧
      statusOf (publishArticleToGitHub envOk dbA wEmpty "a1" "user1"
        "2026-10-11").2.1 "a1" = some .published) ∧
     (pubIsOk (publishArticleToGitHub envOk
        (publishArticleToGitHub envOk dbA wEmpty "a1" "user1"
          "2026-10-11").2.1
        (publishArticleToGitHub envOk dbA wEmpty "a1" "user1"
          "2026-10-11").2.2
        "a1" "user1" "2026-10-11").1 = true ∧
      pubWasUpdate (publishArticleToGitHub envOk
        (publishArticleToGitHub envOk dbA wEmpty "a1" "user1"
          "2026-10-11").2.1
        (publishArticleToGitHub envOk dbA wEmpty "a1" "user1"
          "2026-10-11").2.2
        "a1" "user1" "2026-10-11").1 = some true ∧
      pubFilePath (publishArticleToGitHub envOk
        (publishArticleToGitHub envOk dbA wEmpty "a1" "user1"
          "2026-10-11").2.1
        (publishArticleToGitHub envOk dbA wEmpty "a1" "user1"
          "2026-10-11").2.2
        "a1" "user1" "2026-10-11").1 =
        some ("content/" ++ artA.slug ++ ".md") ∧
      statusOf (publishArticleToGitHub envOk
        (publishArticleToGitHub envOk dbA wEmpty "a1" "user1"
          "2026-10-11").2.1
        (publishArticleToGitHub envOk dbA wEmpty "a1" "user1"
          "2026-10-11").2.2
        "a1" "user1" "2026-10-11").2.1 "a1" = some .published)) :=
  ⟨by decide, by decide,
    c7_idempotent_publish envOk dbA wEmpty "a1" "user1" "2026-10-11"
      "tok123" artA siteA (by decide) (by decide) (by decide) (by decide)
      (by decide)⟩

set_option maxRecDepth 10000

/-- A found last index holds the sought character. -/
theorem lastIdxOf_mem (c : Char) :
    ∀ (l : List Char) (j : Nat), lastIdxOf c l = some j → l.get? j = some c := by
  intro l
  induction l with
  | nil => intro j h; simp [lastIdxOf] at h
  | cons x xs ih =>
    intro j h
    unfold lastIdxOf at h
    cases hx : lastIdxOf c xs with
    | some j2 =>
      rw [hx] at h
      simp at h
      subst h
      simpa using ih j2 hx
    | none =>
      rw [hx] at h
      by_cases hc : x = c
      · simp [hc] at h
        subst h
        simp [hc]
      · simp [hc] at h

/-- Characterisation of `lastIndexOf`: an occurrence after which the
character never recurs is the last index. -/
theorem lastIdxOf_spec (c : Char) :
    ∀ (l : List Char) (k : Nat), l.get? k = some c →
      (∀ j, k < j → l.get? j ≠ some c) → lastIdxOf c l = some k := by
  intro l
  induction l with
  | nil => intro k h1 _; simp at h1
  | cons x xs ih =>
    intro k h1 h2
    cases k with
    | zero =>
      simp at h1
      have hnone : lastIdxOf c xs = none := by
        cases hx : lastIdxOf c xs with
        | none => rfl
        | some j =>
          exfalso
          refine h2 (j + 1) (by omega) ?_
          simpa using lastIdxOf_mem c xs j hx
      simp [lastIdxOf, hnone, h1]
    | succ k =>
      have h1b : xs.get? k = some c := by simpa using h1
      have h2b : ∀ j, k < j → xs.get? j ≠ some c := by
        intro j hj hcon
        exact h2 (j + 1) (by omega) (by simpa using hcon)
      simp [lastIdxOf, ih k h1b h2b]

/-- C6: the excerpt derivation on a plain-text body (one the stripping
pipeline leaves unchanged): exactly 150 characters are returned verbatim
with no ellipsis; 151 characters are cut to a prefix of at most 150
characters plus the ellipsis; a 200-character body whose last space
before position 150 sits at position 120 is cut at that space, not at
position 150. -/
theorem c6_excerpt_truncation_boundary :
    ∀ t : List Char, stripMarkdown t = t →
      ((t.length = 150 → generateExcerpt t = t) ∧
       (t.length = 151 →
         generateExcerpt t = t.take ((generateExcerpt t).length - 3) ++ dots ∧
         (generateExcerpt t).length - 3 ≤ 150) ∧
       (t.length = 200 → t.get? 120 = some ' ' →
         (∀ i, i < 150 → 120 < i → t.get? i ≠ some ' ') →
         generateExcerpt t = t.take 120 ++ dots)) := by
  intro t hs
  refine ⟨?_, ?_, ?_⟩
  · intro hlen
    simp [generateExcerpt, hs, hlen]
  · intro hlen
    have hgt : ¬ t.length ≤ 150 := by omega
    simp only [generateExcerpt, hs, hlen]
    norm_num
    cases hlast : lastIdxOf ' ' (t.take 150) with
    | some k =>
      have hk : k < (t.take 150).length := by
        have := lastIdxOf_mem ' ' (t.take 150) k hlast
        exact List.get?_eq_some.mp this |>.1
      rw [List.length_take] at hk
      by_cases hk100 : k > 100
      · simp only [hlast, hk100, if_true]
        rw [List.take_take]
        have hmin : min k 150 = k := by omega
        rw [hmin]
        have hlen3 : (List.take k t ++ dots).length = k + 3 := by
          simp [dots, str]
          omega
        rw [hlen3]
        refine ⟨?_, by omega⟩
        norm_num
      · simp only [hlast, hk100, if_false]
        have hlen2 : (t.take 150 ++ dots).length = 153 := by
          simp [dots, str]
          omega
        rw [hlen2]
        refine ⟨?_, by omega⟩
        norm_num
    | none =>
      simp only [hlast]
      have hlen2 : (t.take 150 ++ dots).length = 153 := by
        simp [dots, str]
        omega
      rw [hlen2]
      refine ⟨?_, by omega⟩
      norm_num
  · intro hlen hsp hnosp
    have hgt : ¬ t.length ≤ 150 := by omega
    have hspec : lastIdxOf ' ' (t.take 150) = some 120 := by
      refine lastIdxOf_spec ' ' (t.take 150) 120 ?_ ?_
      · rw [List.get?_take (by omega)]
        exact hsp
      · intro j hj hcon
        by_cases hj150 : j < 150
        · rw [List.get?_take hj150] at hcon
          exact hnosp j hj150 hj hcon
        · rw [List.get?_eq_none.mpr (by simp [List.length_take]; omega)]
            at hcon
          exact Option.noConfusion hcon
    simp only [generateExcerpt, hs, hgt, if_false, hspec]
    norm_num
    rw [List.take_take]
    norm_num

/-- Witness for C6: the three boundary bodies (150 letters; 151 letters;
120 letters, a space, 79 letters). -/
theorem c6_excerpt_truncation_boundary_witness :
    stripMarkdown body150 = body150 ∧
    generateExcerpt body150 = body150 ∧
    generateExcerpt body151 =
      body151.take ((generateExcerpt body151).length - 3) ++ dots ∧
    generateExcerpt body200 = body200.take 120 ++ dots :=
  ⟨by decide,
    (c6_excerpt_truncation_boundary body150 (by decide)).1 (by decide),
    ((c6_excerpt_truncation_boundary body151 (by decide)).2.1
      (by decide)).1,
    (c6_excerpt_truncation_boundary body200 (by decide)).2.2 (by decide)
      (by decide) (by decide)⟩

/-- Whitespace collapse never emits a newline. -/
theorem nl_not_mem_collapse :
    ∀ l : List Char, '\n' ∉ collapseWs l ∧ '\n' ∉ skipWsRun l := by
  intro l
  induction l with
  | nil => constructor <;> simp [collapseWs, skipWsRun]
  | cons c rest ih =>
    have hcne : ¬ isWs c = true → ¬ '\n' = c := by
      intro hf he
      rw [← he] at hf
      simp [isWs] at hf
    constructor
    · unfold collapseWs
      by_cases hw : isWs c
      · simp only [hw, if_true]
        intro hmem
        rcases List.mem_cons.mp hmem with h | h
        · exact absurd h (by decide)
        · exact ih.2 h
      · simp only [hw, if_false]
        intro hmem
        rcases List.mem_cons.mp hmem with h | h
        · exact hcne hw h
        · exact ih.1 h
    · unfold skipWsRun
      by_cases hw : isWs c
      · simp only [hw, if_true]
        exact ih.2
      · simp only [hw, if_false]
        intro hmem
        rcases List.mem_cons.mp hmem with h | h
        · exact hcne hw h
        · exact ih.1 h

/-- Trimming only removes characters. -/
theorem mem_of_mem_trimL {x : Char} {l : List Char} (h : x ∈ trimL l) :
    x ∈ l := by
  unfold trimL at h
  rw [List.mem_reverse] at h
  have h2 := (List.dropWhile_sublist isWs).subset h
  rw [List.mem_reverse] at h2
  exact (List.dropWhile_sublist isWs).subset h2

/-- The derived excerpt never contains a newline: the whitespace collapse
near the end of the stripping pipeline replaces every whitespace run by a
single space, and the truncation only takes prefixes and appends the
ellipsis. -/
theorem nl_not_mem_generateExcerpt (content : List Char) :
    '\n' ∉ generateExcerpt content := by
  have hbase : '\n' ∉ stripMarkdown content := by
    intro hmem
    unfold stripMarkdown at hmem
    exact (nl_not_mem_collapse _).1 (mem_of_mem_trimL hmem)
  intro hmem
  unfold generateExcerpt at hmem
  by_cases hlen : (stripMarkdown content).length ≤ 150
  · simp only [hlen, if_true] at hmem
    exact hbase hmem
  · simp only [hlen, if_false] at hmem
    cases hli : lastIdxOf ' ' ((stripMarkdown content).take 150) with
    | some k =>
      rw [hli] at hmem
      by_cases hk : k > 100
      · simp only [hk, if_true] at hmem
        rcases List.mem_append.mp hmem with h | h
        · exact hbase (List.mem_of_mem_take (List.mem_of_mem_take h))
        · simp [dots, str] at h
      · simp only [hk, if_false] at hmem
        rcases List.mem_append.mp hmem with h | h
        · exact hbase (List.mem_of_mem_take h)
        · simp [dots, str] at h
    | none =>
      rw [hli] at hmem
      rcases List.mem_append.mp hmem with h | h
      · exact hbase (List.mem_of_mem_take h)
      · simp [dots, str] at h

/-- A trim-stable non-empty list starts with a non-whitespace
character. -/
theorem head_not_ws_of_trim_fix (c : Char) (cs : List Char)
    (h : trimL (c :: cs) = c :: cs) : isWs c = false := by
  by_contra hw
  rw [Bool.not_eq_false] at hw
  have hdrop : (c :: cs).dropWhile isWs = cs.dropWhile isWs := by
    simp [List.dropWhile_cons, hw]
  have hle : (trimL (c :: cs)).length ≤ cs.length := by
    unfold trimL
    rw [hdrop]
    calc ((((cs.dropWhile isWs).reverse).dropWhile isWs).reverse).length =
        (((cs.dropWhile isWs).reverse).dropWhile isWs).length := by
          rw [List.length_reverse]
      _ ≤ ((cs.dropWhile isWs).reverse).length :=
          (List.dropWhile_sublist isWs).length_le
      _ = (cs.dropWhile isWs).length := by rw [List.length_reverse]
      _ ≤ cs.length := (List.dropWhile_sublist isWs).length_le
  rw [h] at hle
  simp at hle

/-- Behaviour of the greedy `whitespace-star newline` matcher on the
rendered blank line before a trim-stable body. -/
theorem matchWsNl_render (content : List Char) (h : trimL content = content) :
    matchWsNl ('\n' :: '\n' :: content) = some content := by
  have hnone : matchWsNl content = none := by
    cases content with
    | nil => rfl
    | cons c cs =>
      have := head_not_ws_of_trim_fix c cs h
      unfold matchWsNl
      simp [this]
  unfold matchWsNl
  simp only [show isWs '\n' = true from by decide, if_true]
  unfold matchWsNl
  simp only [show isWs '\n' = true from by decide, if_true]
  rw [hnone]

/-- No closing delimiter can start at a character other than a
newline. -/
theorem delimAt_cons_ne (c : Char) (xs : List Char) (h : c ≠ '\n') :
    delimAt (c :: xs) = none := by
  unfold delimAt
  split
  next heq =>
    exfalso
    injection heq with h1 _
    exact h h1
  next => rfl

/-- No closing delimiter can continue with a character other than a
dash after the newline. -/
theorem delimAt_nl_cons_ne (d : Char) (xs : List Char) (h : d ≠ '-') :
    delimAt ('\n' :: d :: xs) = none := by
  unfold delimAt
  split
  next heq =>
    exfalso
    injection heq with _ h2
    injection h2 with h3 _
    exact h h3
  next => rfl

/-- A position whose delimiter test fails contributes its character to
the lazy capture. -/
theorem findDelim_cons_nd (c : Char) (l : List Char)
    (h : delimAt (c :: l) = none) :
    findDelim (c :: l) =
      (findDelim l).map (fun p => (c :: p.1, p.2)) := by
  conv_lhs => rw [findDelim]
  rw [h]
  cases findDelim l with
  | none => rfl
  | some p => cases p; rfl

/-- The lazy delimiter search skips over any newline-free prefix. -/
theorem findDelim_noNl (a : List Char) (ha : '\n' ∉ a) :
    ∀ l, findDelim (a ++ l) =
      (findDelim l).map (fun p => (a ++ p.1, p.2)) := by
  induction a with
  | nil =>
    intro l
    cases hf : findDelim l with
    | none => simp [hf]
    | some p => cases p; simp [hf]
  | cons c a2 ih =>
    intro l
    have hc : c ≠ '\n' := fun he => ha (by simp [he])
    have ha2 : '\n' ∉ a2 := fun hm => ha (by simp [hm])
    rw [List.cons_append, findDelim_cons_nd c (a2 ++ l)
      (delimAt_cons_ne c (a2 ++ l) hc), ih ha2 l]
    cases findDelim l with
    | none => rfl
    | some p => cases p; rfl

/-- Newline split of a newline-free list. -/
theorem splitOnNl_noNl (a : List Char) (ha : '\n' ∉ a) :
    splitOnNl a = [a] := by
  induction a with
  | nil => rfl
  | cons c a2 ih =>
    have hc : ¬ c = '\n' := fun he => ha (by simp [he])
    have ha2 : '\n' ∉ a2 := fun hm => ha (by simp [hm])
    unfold splitOnNl
    simp only [hc, if_false]
    rw [ih ha2]

/-- Newline split around the first newline after a newline-free
prefix. -/
theorem splitOnNl_append (a : List Char) (ha : '\n' ∉ a) :
    ∀ l, splitOnNl (a ++ '\n' :: l) = a :: splitOnNl l := by
  induction a with
  | nil =>
    intro l
    simp [splitOnNl]
  | cons c a2 ih =>
    intro l
    have hc : ¬ c = '\n' := fun he => ha (by simp [he])
    have ha2 : '\n' ∉ a2 := fun hm => ha (by simp [hm])
    rw [List.cons_append]
    conv_lhs => rw [splitOnNl]
    simp only [hc, if_false]
    rw [ih ha2 l]

/-- Trimming drops a leading whitespace character. -/
theorem trimL_cons_ws (c : Char) (l : List Char) (h : isWs c = true) :
    trimL (c :: l) = trimL l := by
  unfold trimL
  rw [List.dropWhile_cons]
  simp [h]

/-- The front-matter regex on a rendered file: with a newline-free title,
date and excerpt and a trim-stable body, the match captures exactly the
rendered front-matter text and the raw body. -/
theorem matchFront_render (title today e content : List Char)
    (hT : '\n' ∉ title) (hD : '\n' ∉ today) (hE : '\n' ∉ e)
    (hC : trimL content = content) :
    matchFront (str "---\ntitle: " ++ (title ++ (str "\ndate: " ++ (today ++
      (str "\nexcerpt: " ++ (e ++ (str "\n---\n\n" ++ content))))))) =
    some (str "title: " ++ (title ++ (str "\ndate: " ++ (today ++
      (str "\nexcerpt: " ++ e)))), content) := by
  have hstep1 : matchFront (str "---\ntitle: " ++ (title ++ (str "\ndate: " ++
      (today ++ (str "\nexcerpt: " ++ (e ++
        (str "\n---\n\n" ++ content))))))) =
      findDelim (str "title: " ++ (title ++ (str "\ndate: " ++ (today ++
        (str "\nexcerpt: " ++ (e ++ (str "\n---\n\n" ++ content))))))) := rfl
  rw [hstep1]
  rw [findDelim_noNl (str "title: ") (by decide)]
  rw [findDelim_noNl title hT]
  rw [show (str "\ndate: " ++ (today ++ (str "\nexcerpt: " ++ (e ++
      (str "\n---\n\n" ++ content))))) = '\n' :: (str "date: " ++ (today ++
      (str "\nexcerpt: " ++ (e ++ (str "\n---\n\n" ++ content))))) from rfl]
  rw [findDelim_cons_nd '\n' (str "date: " ++ (today ++ (str "\nexcerpt: " ++
      (e ++ (str "\n---\n\n" ++ content)))))
      (delimAt_nl_cons_ne 'd' (str "ate: " ++ (today ++ (str "\nexcerpt: " ++
        (e ++ (str "\n---\n\n" ++ content))))) (by decide))]
  rw [findDelim_noNl (str "date: ") (by decide)]
  rw [findDelim_noNl today hD]
  rw [show (str "\nexcerpt: " ++ (e ++ (str "\n---\n\n" ++ content))) =
      '\n' :: (str "excerpt: " ++ (e ++ (str "\n---\n\n" ++ content)))
      from rfl]
  rw [findDelim_cons_nd '\n' (str "excerpt: " ++ (e ++
      (str "\n---\n\n" ++ content)))
      (delimAt_nl_cons_ne 'e' (str "xcerpt: " ++ (e ++
        (str "\n---\n\n" ++ content))) (by decide))]
  rw [findDelim_noNl (str "excerpt: ") (by decide)]
  rw [findDelim_noNl e hE]
  rw [show (str "\n---\n\n" ++ content) =
      '\n' :: '-' :: '-' :: '-' :: '\n' :: '\n' :: content from rfl]
  have hZ : findDelim ('\n' :: '-' :: '-' :: '-' :: '\n' :: '\n' :: content) =
      some ([], content) := by
    conv_lhs => rw [findDelim]
    rw [show delimAt ('\n' :: '-' :: '-' :: '-' :: '\n' :: '\n' :: content) =
      matchWsNl ('\n' :: '\n' :: content) from rfl]
    rw [matchWsNl_render content hC]
  rw [hZ]
  simp only [Option.map_some', List.append_nil]
  rfl

set_option maxHeartbeats 1600000

/-- C4 (amended): the publish/import round trip preserves title and
content for articles whose title is non-empty, newline-free and
trim-stable and whose content is trim-stable, for any newline-free date
string.  (In general the import parser trims the body and front-matter
values and substitutes a derived title for an empty one, so the
unrestricted round trip fails.) -/
theorem c4_roundtrip_amended :
    ∀ (title today content filePath : List Char),
      '\n' ∉ title → trimL title = title → title ≠ [] →
      '\n' ∉ today →
      trimL content = content →
      (parseMarkdownContent (renderMarkdown title today content)
        filePath).title = title ∧
      (parseMarkdownContent (renderMarkdown title today content)
        filePath).content = content := by
  intro title today content filePath hTnl hTtr hTne hDnl hCtr
  have hEnl : '\n' ∉ generateExcerpt content :=
    nl_not_mem_generateExcerpt content
  unfold parseMarkdownContent renderMarkdown
  simp only [List.append_assoc]
  rw [matchFront_render title today (generateExcerpt content) content
    hTnl hDnl hEnl hCtr]
  rw [show (str "title: " ++ (title ++ (str "\ndate: " ++ (today ++
      (str "\nexcerpt: " ++ generateExcerpt content))))) =
      (str "title: " ++ title) ++ '\n' :: ((str "date: " ++ today) ++
        '\n' :: (str "excerpt: " ++ generateExcerpt content)) from rfl]
  have hT1 : '\n' ∉ (str "title: " ++ title) := by
    intro hm
    rcases List.mem_append.mp hm with h | h
    · exact absurd h (by decide)
    · exact hTnl h
  have hD1 : '\n' ∉ (str "date: " ++ today) := by
    intro hm
    rcases List.mem_append.mp hm with h | h
    · exact absurd h (by decide)
    · exact hDnl h
  have hE1 : '\n' ∉ (str "excerpt: " ++ generateExcerpt content) := by
    intro hm
    rcases List.mem_append.mp hm with h | h
    · exact absurd h (by decide)
    · exact hEnl h
  have hsc1 : splitColon (str "title: " ++ title) =
      some (str "title", ' ' :: title) := rfl
  have hsc2 : splitColon (str "date: " ++ today) =
      some (str "date", ' ' :: today) := rfl
  have hsc3 : splitColon (str "excerpt: " ++ generateExcerpt content) =
      some (str "excerpt", ' ' :: generateExcerpt content) := rfl
  have hne1 : (str "title" : List Char) ≠ [] := by decide
  have hne2 : (str "date" : List Char) ≠ [] := by decide
  have hne3 : (str "excerpt" : List Char) ≠ [] := by decide
  have hk1 : trimL (str "title") = str "title" := rfl
  have hk2 : trimL (str "date") = str "date" := rfl
  have hk3 : trimL (str "excerpt") = str "excerpt" := rfl
  have hv1 : trimL (' ' :: title) = title := by
    rw [trimL_cons_ws ' ' title (by decide)]
    exact hTtr
  have hfml : fmLines [str "title: " ++ title, str "date: " ++ today,
      str "excerpt: " ++ generateExcerpt content] =
      [(str "title", title), (str "date", trimL (' ' :: today)),
       (str "excerpt", trimL (' ' :: generateExcerpt content))] := by
    simp only [fmLines, hsc1, hsc2, hsc3, if_neg hne1, if_neg hne2,
      if_neg hne3, hk1, hk2, hk3, hv1]
  have hd2 : ¬ ((str "date" : List Char) = str "title") := by decide
  have hd3 : ¬ ((str "excerpt" : List Char) = str "title") := by decide
  have hlook : lookupLast [(str "title", title),
      (str "date", trimL (' ' :: today)),
      (str "excerpt", trimL (' ' :: generateExcerpt content))]
      (str "title") = some title := by
    simp only [lookupLast, List.foldl_cons, List.foldl_nil]
    simp only [if_pos rfl, if_neg hd2, if_neg hd3]
    simp
  constructor
  · show orFalsy (lookupLast (fmLines (splitOnNl ((str "title: " ++ title) ++
        '\n' :: ((str "date: " ++ today) ++
          '\n' :: (str "excerpt: " ++ generateExcerpt content)))))
        (str "title"))
      (titleCase (replaceFirstStr (str ".md") []
        (replaceFirstStr (str "content/") [] filePath))) = title
    rw [splitOnNl_append _ hT1, splitOnNl_append _ hD1, splitOnNl_noNl _ hE1,
      hfml, hlook]
    simp only [orFalsy, if_neg hTne]
  · show trimL content = content
    exact hCtr

/-- C4 (counterexample): the unrestricted round trip fails — an article
whose content is the two characters x-newline comes back from
parse-after-render with content x: the import parser trims the body. -/
theorem c4_roundtrip_counterexample :
    (parseMarkdownContent (renderMarkdown (str "T") (str "2026-01-01")
      (str "x\n")) (str "content/t.md")).content ≠ str "x\n" ∧
    (parseMarkdownContent (renderMarkdown (str "T") (str "2026-01-01")
      (str "x\n")) (str "content/t.md")).content = str "x" := by
  exact ⟨by decide, by decide⟩

/-- Witness for C4 (amended) at a concrete article. -/
theorem c4_roundtrip_amended_witness :
    '\n' ∉ str "My Post" ∧ trimL (str "My Post") = str "My Post" ∧
    str "My Post" ≠ ([] : List Char) ∧ '\n' ∉ str "2026-01-01" ∧
    trimL (str "Hello world") = str "Hello world" ∧
    (parseMarkdownContent (renderMarkdown (str "My Post")
      (str "2026-01-01") (str "Hello world"))
      (str "content/p.md")).title = str "My Post" ∧
    (parseMarkdownContent (renderMarkdown (str "My Post")
      (str "2026-01-01") (str "Hello world"))
      (str "content/p.md")).content = str "Hello world" :=
  ⟨by decide, by decide, by decide, by decide, by decide,
    (c4_roundtrip_amended (str "My Post") (str "2026-01-01")
      (str "Hello world") (str "content/p.md") (by decide) (by decide)
      (by decide) (by decide) (by decide)).1,
    (c4_roundtrip_amended (str "My Post") (str "2026-01-01")
      (str "Hello world") (str "content/p.md") (by decide) (by decide)
      (by decide) (by decide) (by decide)).2⟩

end Inland
